import Mathlib

/-!
# Service reconciliation decisions (pkg/controller/common/service_control.go)

A shallow embedding of `applyServerSideValues`, `needsRecreate`, `needsUpdate`,
`validClusterIPs` and `hasNodePort`, together with the parts of the Kubernetes
`Service` object they read, write or compare.

Conventions of the embedding:

* The Go functions mutate `expected` in place. Here `applyServerSideValues`
  returns the mutated `expected`; `reconciled` is only read.
* A Go slice is a `Slice`: `Slice.nil` is the nil slice, `Slice.ofList l` a
  non-nil slice. `reflect.DeepEqual` tells a nil slice from an empty non-nil
  one, and so does the derived equality of `Slice`.
* An indexing expression `s[i]` is `Slice.index s i`; `none` stands for the
  run-time panic of an index out of range, and the functions return `Option`
  for that reason.
* `net.ParseIP` belongs to the Go standard library. It is a parameter
  `ParseIP` of every function that calls it; `none` is the nil result.
-/

namespace ServiceControl

/-! ## Data model -/

/-- A Go slice: either nil or a non-nil sequence of elements. -/
inductive Slice (α : Type) where
  | nil : Slice α
  | ofList : List α → Slice α
  deriving DecidableEq, Repr

namespace Slice

/-- The elements of a slice; a nil slice has none. -/
def elems {α : Type} : Slice α → List α
  | Slice.nil => []
  | Slice.ofList l => l

/-- Go `len(s)`. -/
def len {α : Type} (s : Slice α) : Nat := s.elems.length

/-- Go `s[i]`; `none` is the index-out-of-range panic. -/
def index {α : Type} (s : Slice α) (i : Nat) : Option α := s.elems[i]?

/-- Go `s == nil`. -/
def isNil {α : Type} : Slice α → Bool
  | Slice.nil => true
  | Slice.ofList _ => false

end Slice

/-- A Go `map[string]string`, as a finite map with unique keys. -/
abbrev StringMap := Finmap (fun _ : String => String)

/-- The result of `net.ParseIP`: the bytes of the address. -/
abbrev IP := List Nat

/-- The discriminant of `intstr.IntOrString`. -/
inductive IntstrType where
  | Int
  | String
  deriving DecidableEq, Repr

/-- The type `intstr.IntOrString` of `k8s.io/apimachinery`. -/
structure IntOrString where
  Type_ : IntstrType
  IntVal : Int
  StrVal : String
  deriving DecidableEq

/-- The largest `uint64`. -/
def maxUint64 : Nat := 2 ^ 64 - 1

/-- The digit loop of `strconv.ParseUint(s, 10, 64)`: `none` is a syntax
error; on overflow the loop stops at once with the largest value. -/
def parseUintLoop : List Char → Nat → Option Nat
  | [], n => some n
  | c :: cs, n =>
    if c.isDigit then
      if n ≥ maxUint64 / 10 + 1 then some maxUint64
      else
        let n1 := n * 10 + (c.toNat - 48)
        if n1 > maxUint64 then some maxUint64 else parseUintLoop cs n1
    else none

/-- The value returned by `strconv.Atoi` (64-bit `int`), its error dropped:
0 on a syntax error, the clamped value on a range error. -/
def Atoi (s : String) : Int :=
  match s.data with
  | [] => 0
  | c :: cs =>
    let neg := decide (c = '-')
    let digits := if c = '-' ∨ c = '+' then cs else c :: cs
    match digits with
    | [] => 0
    | d :: ds =>
      match parseUintLoop (d :: ds) 0 with
      | none => 0
      | some un =>
        if neg = false ∧ un ≥ 2 ^ 63 then 2 ^ 63 - 1
        else if neg = true ∧ un > 2 ^ 63 then -(2 ^ 63)
        else if neg then -(un : Int) else (un : Int)

/-- The method `IntValue` of `intstr.IntOrString`: the integer value, or the
`Atoi` of the string value. -/
def IntOrString.IntValue (x : IntOrString) : Int :=
  if x.Type_ = IntstrType.String then Atoi x.StrVal else x.IntVal

/-- The type `corev1.ServicePort`. Only `TargetPort` and `NodePort` are
written by the code; the other fields take part in the structural comparison
of the specs. -/
structure ServicePort where
  Name : String
  Protocol : String
  AppProtocol : Option String
  Port : Int
  TargetPort : IntOrString
  NodePort : Int
  deriving DecidableEq

/-- The type `corev1.ServiceSpec`. String-typed enumerations (`ServiceType`,
`ServiceAffinity`, `IPFamily`, ...) are strings, pointers are options. The
fields the code never names are carried along because `reflect.DeepEqual`
compares them. -/
structure ServiceSpec where
  Ports : Slice ServicePort
  Selector : Option StringMap
  ClusterIP : String
  ClusterIPs : Slice String
  Type_ : String
  ExternalIPs : Slice String
  SessionAffinity : String
  LoadBalancerIP : String
  LoadBalancerSourceRanges : Slice String
  ExternalName : String
  ExternalTrafficPolicy : String
  HealthCheckNodePort : Int
  PublishNotReadyAddresses : Bool
  SessionAffinityConfig : Option (Option (Option Int))
  IPFamilies : Slice String
  IPFamilyPolicy : Option String
  AllocateLoadBalancerNodePorts : Option Bool
  deriving DecidableEq

/-- The labels and annotations of `metav1.ObjectMeta`, the only metadata the
code reads or writes. -/
structure ObjectMeta where
  Labels : StringMap
  Annotations : StringMap
  deriving DecidableEq

/-- The type `corev1.Service`. -/
structure Service where
  ObjectMeta : ObjectMeta
  Spec : ServiceSpec
  deriving DecidableEq

/-- The constant `corev1.ServiceTypeNodePort`. -/
def ServiceTypeNodePort : String := "NodePort"

/-- The constant `corev1.ServiceTypeLoadBalancer`. -/
def ServiceTypeLoadBalancer : String := "LoadBalancer"

/-! ## Helpers of the repository that are not in the source tree -/

/-- Modelled from the spec: `maps.MergePreservingExistingKeys(dest, src)` of
pkg/utils/maps. Every key present in `dest` keeps the value of `dest`; every
key present only in `src` is added with the value of `src`. -/
def MergePreservingExistingKeys (dest src : StringMap) : StringMap := dest ∪ src

/-- Modelled from the spec: `compare.LabelsAndAnnotationsAreEqual(a, b)` of
pkg/utils/compare. The labels of `a` and `b` are the same mapping and so are
the annotations: any difference of key set or of value is a difference. -/
def LabelsAndAnnotationsAreEqual (a b : ObjectMeta) : Bool :=
  decide (a.Labels = b.Labels) && decide (a.Annotations = b.Annotations)

/-! ## The functions of service_control.go -/

/-- Source `validClusterIPs`: no address of the list fails to parse. -/
def validClusterIPs (ParseIP : String → Option IP) : List String → Bool
  | [] => true
  | ip :: rest =>
    if (ParseIP ip).isNone then false else validClusterIPs ParseIP rest

/-- Source `hasNodePort`: whether the ports of a service of this type have a
node port. -/
def hasNodePort (svcType : String) : Bool :=
  svcType == ServiceTypeNodePort || svcType == ServiceTypeLoadBalancer

/-- One iteration of the loop over `expected.Spec.Ports` in
`applyServerSideValues`, at index `i`, on the element `p` found there. -/
def applyPort (svcType : String) (reconciledPorts : Slice ServicePort) (i : Nat)
    (p : ServicePort) : Option ServicePort := do
  let p ←
    if p.TargetPort.IntValue = 0 then
      (reconciledPorts.index i).map fun q => { p with TargetPort := q.TargetPort }
    else some p
  -- check if NodePort makes sense for this service type
  if hasNodePort svcType && decide (p.NodePort = 0) then
    (reconciledPorts.index i).map fun q => { p with NodePort := q.NodePort }
  else some p

/-- The loop `for i := range expected.Spec.Ports` of `applyServerSideValues`,
from index `i` on, over the elements that remain. -/
def applyPorts (svcType : String) (reconciledPorts : Slice ServicePort) :
    Nat → List ServicePort → Option (List ServicePort)
  | _, [] => some []
  | i, p :: ps => do
    let q ← applyPort svcType reconciledPorts i p
    let qs ← applyPorts svcType reconciledPorts (i + 1) ps
    some (q :: qs)

/-- Source `applyServerSideValues`: applies any default that may have been
set from the reconciled version. Returns the mutated `expected`. Each
assignment to a field of `expected` is a binding of the new value of that
field; a later read of the field reads the binding. -/
def applyServerSideValues (ParseIP : String → Option IP) (expected reconciled : Service) :
    Option Service := do
  -- Type may be defaulted by the api server
  let type_ :=
    if expected.Spec.Type_ = "" then reconciled.Spec.Type_ else expected.Spec.Type_
  -- ClusterIP, only if the type is not changing and the api server has assigned an IP
  let clusterIP :=
    if type_ = reconciled.Spec.Type_ ∧ expected.Spec.ClusterIP = "" ∧
        (ParseIP reconciled.Spec.ClusterIP).isSome then reconciled.Spec.ClusterIP
    else expected.Spec.ClusterIP
  -- ClusterIPs, only if the type is not changing and the api server has assigned IPs
  let clusterIPs :=
    if type_ = reconciled.Spec.Type_ ∧ expected.Spec.ClusterIPs.len = 0 ∧
        validClusterIPs ParseIP reconciled.Spec.ClusterIPs.elems = true then
      reconciled.Spec.ClusterIPs
    else expected.Spec.ClusterIPs
  -- SessionAffinity may be defaulted by the api server
  let sessionAffinity :=
    if expected.Spec.SessionAffinity = "" then reconciled.Spec.SessionAffinity
    else expected.Spec.SessionAffinity
  -- same for the target port and node port
  let ports ←
    (if expected.Spec.Ports.len = reconciled.Spec.Ports.len then
      match expected.Spec.Ports with
      | Slice.nil => some Slice.nil
      | Slice.ofList ps => (applyPorts type_ reconciled.Spec.Ports 0 ps).map Slice.ofList
    else some expected.Spec.Ports)
  let healthCheckNodePort :=
    if expected.Spec.HealthCheckNodePort = 0 then reconciled.Spec.HealthCheckNodePort
    else expected.Spec.HealthCheckNodePort
  let annotations :=
    MergePreservingExistingKeys expected.ObjectMeta.Annotations reconciled.ObjectMeta.Annotations
  let labels :=
    MergePreservingExistingKeys expected.ObjectMeta.Labels reconciled.ObjectMeta.Labels
  -- IPFamilies is kept from the server if there is no explicit override
  let ipFamilies :=
    if expected.Spec.IPFamilies.isNil then reconciled.Spec.IPFamilies
    else expected.Spec.IPFamilies
  -- IPFamilyPolicy likewise
  let ipFamilyPolicy :=
    if expected.Spec.IPFamilyPolicy.isNone then reconciled.Spec.IPFamilyPolicy
    else expected.Spec.IPFamilyPolicy
  some
    { ObjectMeta := { Labels := labels, Annotations := annotations }
      Spec :=
        { expected.Spec with
          Type_ := type_
          ClusterIP := clusterIP
          ClusterIPs := clusterIPs
          SessionAffinity := sessionAffinity
          Ports := ports
          HealthCheckNodePort := healthCheckNodePort
          IPFamilies := ipFamilies
          IPFamilyPolicy := ipFamilyPolicy } }

/-- The loop `for i := 0; i < len(expected.Spec.IPFamilies); i++` of
`needsRecreate`, from index `i` on, over the expected families that remain:
`some true` when the loop returns true, `some false` when it runs to its end. -/
def ipFamiliesLoop (reconciledFamilies : Slice String) : Nat → List String → Option Bool
  | _, [] => some false
  | i, x :: xs => do
    let y ← reconciledFamilies.index i
    if x ≠ y then some true else ipFamiliesLoop reconciledFamilies (i + 1) xs

/-- Source `needsRecreate`. -/
def needsRecreate (ParseIP : String → Option IP) (expected reconciled : Service) :
    Option Bool := do
  let expected ← applyServerSideValues ParseIP expected reconciled
  -- IPFamilies is immutable
  let familiesChanged ←
    match expected.Spec.IPFamilies with
    | Slice.nil => some false
    | Slice.ofList fams =>
      if fams.length ≠ reconciled.Spec.IPFamilies.len then some true
      else ipFamiliesLoop reconciled.Spec.IPFamilies 0 fams
  if familiesChanged then some true
  -- ClusterIP is immutable
  else if expected.Spec.ClusterIP ≠ reconciled.Spec.ClusterIP then some true
  else some false

/-- Source `needsUpdate`: if the specs, labels, or annotations differ, the
object should be updated. -/
def needsUpdate (ParseIP : String → Option IP) (expected reconciled : Service) :
    Option Bool := do
  let expected ← applyServerSideValues ParseIP expected reconciled
  some (!(decide (expected.Spec = reconciled.Spec) &&
    LabelsAndAnnotationsAreEqual expected.ObjectMeta reconciled.ObjectMeta))

/-- The callback `UpdateReconciled` of `ReconcileService`: the annotations,
labels and spec of the (merged) expected service are written to the
reconciled one. -/
def UpdateReconciled (expected reconciled : Service) : Service :=
  { reconciled with
    ObjectMeta :=
      { reconciled.ObjectMeta with
        Annotations := expected.ObjectMeta.Annotations
        Labels := expected.ObjectMeta.Labels }
    Spec := expected.Spec }

/-! ## A concrete address parser for the examples

`net.ParseIP` is a parameter of the functions above. The examples below
instantiate it with the dotted-decimal branch of the Go function. -/

/-- Go `dtoi` of package net: reads a run of decimal digits; returns the
value, the number of characters read and what follows them. It fails on an
empty run and on a value of 0xFFFFFF or more. -/
def dtoi : List Char → Nat → Nat → Option (Nat × Nat × List Char)
  | [], n, i => if i = 0 then none else some (n, i, [])
  | c :: cs, n, i =>
    if c.isDigit then
      let n1 := n * 10 + (c.toNat - 48)
      if n1 ≥ 0xFFFFFF then none else dtoi cs n1 (i + 1)
    else if i = 0 then none else some (n, i, c :: cs)

/-- The loop of Go `parseIPv4` over the `k` octets that remain; `first` says
that no octet has been read yet. -/
def parseIPv4Octets : Nat → Bool → List Char → Option (List Nat)
  | 0, _, s => if s = [] then some [] else none
  | k + 1, first, s =>
    match s with
    | [] => none
    | c0 :: rest =>
      let field : Option (List Char) :=
        if first then some (c0 :: rest) else if c0 = '.' then some rest else none
      match field with
      | none => none
      | some f =>
        match dtoi f 0 0 with
        | none => none
        | some (n, c, after) =>
          if n > 0xFF then none
          else if c > 1 ∧ f.head? = some '0' then none
          else (parseIPv4Octets k false after).map fun octets => n :: octets

/-- Go `parseIPv4`: a dotted-decimal address, in its 16-byte form. -/
def parseIPv4 (s : List Char) : Option IP :=
  (parseIPv4Octets 4 true s).map fun octets =>
    [0, 0, 0, 0, 0, 0, 0, 0, 0, 0, 0xff, 0xff] ++ octets

/-- The dispatch of Go `net.ParseIP` on the first '.' or ':' of the string,
from the characters `rest` on. The branch for ':' (an IPv6 literal) is not
modelled and yields `none` here. -/
def parseIPScan (s : List Char) : List Char → Option IP
  | [] => none
  | c :: rest =>
    if c = '.' then parseIPv4 s
    else if c = ':' then none
    else parseIPScan s rest

/-- An instance for the parameter `ParseIP`: it agrees with `net.ParseIP` on
every string in which no ':' comes before the first '.'. -/
def parseIPDotted (s : String) : Option IP := parseIPScan s.data s.data

/-! ## Closed forms of the loops and of the merger, used in the proofs -/

/-- What one iteration of the ports loop leaves at an index where `expected`
holds `p` and `reconciled` holds `q`. -/
def mergePort (svcType : String) (p q : ServicePort) : ServicePort :=
  let p1 := if p.TargetPort.IntValue = 0 then { p with TargetPort := q.TargetPort } else p
  if hasNodePort svcType && decide (p1.NodePort = 0) then { p1 with NodePort := q.NodePort }
  else p1

/-- The ports of `expected` after the ports block of the merger. -/
def mergedPorts (svcType : String) (ePorts rPorts : Slice ServicePort) : Slice ServicePort :=
  if ePorts.len = rPorts.len then
    match ePorts with
    | Slice.nil => Slice.nil
    | Slice.ofList ps => Slice.ofList (List.zipWith (mergePort svcType) ps rPorts.elems)
  else ePorts

/-- The type of `expected` after the first block of the merger. -/
def mergedType (e r : Service) : String :=
  if e.Spec.Type_ = "" then r.Spec.Type_ else e.Spec.Type_

/-- The service that `applyServerSideValues` leaves in `expected`, field by
field. -/
def merged (ParseIP : String → Option IP) (e r : Service) : Service :=
  { ObjectMeta :=
      { Labels := MergePreservingExistingKeys e.ObjectMeta.Labels r.ObjectMeta.Labels
        Annotations :=
          MergePreservingExistingKeys e.ObjectMeta.Annotations r.ObjectMeta.Annotations }
    Spec :=
      { e.Spec with
        Type_ := mergedType e r
        ClusterIP :=
          if mergedType e r = r.Spec.Type_ ∧ e.Spec.ClusterIP = "" ∧
              (ParseIP r.Spec.ClusterIP).isSome then r.Spec.ClusterIP
          else e.Spec.ClusterIP
        ClusterIPs :=
          if mergedType e r = r.Spec.Type_ ∧ e.Spec.ClusterIPs.len = 0 ∧
              validClusterIPs ParseIP r.Spec.ClusterIPs.elems = true then r.Spec.ClusterIPs
          else e.Spec.ClusterIPs
        SessionAffinity :=
          if e.Spec.SessionAffinity = "" then r.Spec.SessionAffinity
          else e.Spec.SessionAffinity
        Ports := mergedPorts (mergedType e r) e.Spec.Ports r.Spec.Ports
        HealthCheckNodePort :=
          if e.Spec.HealthCheckNodePort = 0 then r.Spec.HealthCheckNodePort
          else e.Spec.HealthCheckNodePort
        IPFamilies :=
          if e.Spec.IPFamilies.isNil then r.Spec.IPFamilies else e.Spec.IPFamilies
        IPFamilyPolicy :=
          if e.Spec.IPFamilyPolicy.isNone then r.Spec.IPFamilyPolicy
          else e.Spec.IPFamilyPolicy } }

/-! ## Sample values for the examples -/

/-- The zero value of `intstr.IntOrString`. -/
def zeroIntOrString : IntOrString := { Type_ := IntstrType.Int, IntVal := 0, StrVal := "" }

/-- Go `intstr.FromInt`. -/
def FromInt (n : Int) : IntOrString := { Type_ := IntstrType.Int, IntVal := n, StrVal := "" }

/-- Go `intstr.FromString`. -/
def FromString (s : String) : IntOrString :=
  { Type_ := IntstrType.String, IntVal := 0, StrVal := s }

/-- The zero value of `corev1.ServicePort`. -/
def zeroPort : ServicePort :=
  { Name := "", Protocol := "", AppProtocol := none, Port := 0,
    TargetPort := zeroIntOrString, NodePort := 0 }

/-- The zero value of `corev1.ServiceSpec`. -/
def zeroSpec : ServiceSpec :=
  { Ports := Slice.nil, Selector := none, ClusterIP := "", ClusterIPs := Slice.nil,
    Type_ := "", ExternalIPs := Slice.nil, SessionAffinity := "", LoadBalancerIP := "",
    LoadBalancerSourceRanges := Slice.nil, ExternalName := "", ExternalTrafficPolicy := "",
    HealthCheckNodePort := 0, PublishNotReadyAddresses := false,
    SessionAffinityConfig := none, IPFamilies := Slice.nil, IPFamilyPolicy := none,
    AllocateLoadBalancerNodePorts := none }

/-- No labels and no annotations. -/
def zeroMeta : ObjectMeta := { Labels := ∅, Annotations := ∅ }

/-- A service as the api server returns it: type, addresses, session
affinity, target port and address families have been assigned. -/
def observedSvc : Service :=
  { ObjectMeta := { Labels := Finmap.singleton "app" "es", Annotations := ∅ }
    Spec :=
      { zeroSpec with
        Type_ := "ClusterIP"
        ClusterIP := "10.0.0.5"
        ClusterIPs := Slice.ofList ["10.0.0.5", "10.0.0.6"]
        SessionAffinity := "None"
        Ports :=
          Slice.ofList
            [{ zeroPort with Name := "https", Protocol := "TCP", Port := 9200,
                             TargetPort := FromInt 9200 }]
        IPFamilies := Slice.ofList ["IPv4", "IPv6"]
        IPFamilyPolicy := some "PreferDualStack" } }

/-- A desired service that leaves every server-assigned field unset. -/
def desiredSvc : Service :=
  { ObjectMeta := { Labels := Finmap.singleton "app" "es", Annotations := ∅ }
    Spec :=
      { zeroSpec with
        Type_ := "ClusterIP"
        Ports := Slice.ofList [{ zeroPort with Name := "https", Protocol := "TCP", Port := 9200 }] } }

/-- The desired service with a named target port. -/
def desiredNamedPort : Service :=
  { desiredSvc with
    Spec :=
      { desiredSvc.Spec with
        Ports :=
          Slice.ofList
            [{ zeroPort with Name := "https", Protocol := "TCP", Port := 9200,
                             TargetPort := FromString "http" }] } }

/-- The observed service with its ClusterIPs emptied: the desired service of
the address-list scenario, in which no other field differs. -/
def desiredNoClusterIPs : Service :=
  { observedSvc with Spec := { observedSvc.Spec with ClusterIPs := Slice.ofList [] } }

/-- The desired service with a second port: one port more than observed. -/
def desiredTwoPorts : Service :=
  { desiredSvc with
    Spec :=
      { desiredSvc.Spec with
        Ports :=
          Slice.ofList
            [{ zeroPort with Name := "https", Protocol := "TCP", Port := 9200 },
             { zeroPort with Name := "transport", Protocol := "TCP", Port := 9300 }] } }

/-- The observed service with a node port recorded on its port. -/
def observedWithNodePort : Service :=
  { observedSvc with
    Spec :=
      { observedSvc.Spec with
        Ports :=
          Slice.ofList
            [{ zeroPort with Name := "https", Protocol := "TCP", Port := 9200,
                             TargetPort := FromInt 9200, NodePort := 30920 }] } }

/-- An observed service of type NodePort, with an allocated node port. -/
def observedNodePortSvc : Service :=
  { observedWithNodePort with Spec := { observedWithNodePort.Spec with Type_ := "NodePort" } }

/-- A desired service of type NodePort that leaves the node port unset. -/
def desiredNodePortSvc : Service :=
  { desiredSvc with Spec := { desiredSvc.Spec with Type_ := "NodePort" } }

/-- The desired service of the metadata scenario: annotations a:1. -/
def desiredAnnotated : Service :=
  { observedSvc with
    ObjectMeta := { observedSvc.ObjectMeta with Annotations := Finmap.singleton "a" "1" } }

/-- The observed service of the metadata scenario: annotations a:2, b:3. -/
def observedAnnotated : Service :=
  { observedSvc with
    ObjectMeta :=
      { observedSvc.ObjectMeta with
        Annotations := (Finmap.singleton "b" "3").insert "a" "2" } }

/-- The desired service with an empty, non-nil IPFamilies. -/
def desiredEmptyFamilies : Service :=
  { desiredSvc with Spec := { desiredSvc.Spec with IPFamilies := Slice.ofList [] } }

/-- The observed service with its type unset: a desired service that differs
from the observed one in the type only. -/
def desiredUnsetType : Service :=
  { observedSvc with Spec := { observedSvc.Spec with Type_ := "" } }

/-- A headless observed service: the ClusterIP is the placeholder "None". -/
def observedHeadless : Service :=
  { observedSvc with
    Spec := { observedSvc.Spec with ClusterIP := "None", ClusterIPs := Slice.ofList ["None"] } }

/-- The observed service without its labels: a desired service from which
the label app:es has been removed. -/
def desiredNoLabels : Service :=
  { observedSvc with ObjectMeta := { observedSvc.ObjectMeta with Labels := ∅ } }

/-! ## The loops agree with their closed forms -/

theorem applyPort_eq (svcType : String) (rp : Slice ServicePort) (i : Nat)
    (p q : ServicePort) (h : rp.index i = some q) :
    applyPort svcType rp i p = some (mergePort svcType p q) := by
  unfold applyPort mergePort
  by_cases h1 : p.TargetPort.IntValue = 0 <;>
    by_cases h2 : hasNodePort svcType = true <;>
    by_cases h3 : p.NodePort = 0 <;>
    simp [h, h1, h2, h3]

theorem applyPorts_eq (svcType : String) (rp : Slice ServicePort) :
    ∀ (ps : List ServicePort) (i : Nat), i + ps.length ≤ rp.len →
      applyPorts svcType rp i ps
        = some (List.zipWith (mergePort svcType) ps (rp.elems.drop i)) := by
  intro ps
  induction ps with
  | nil => intro i _; simp [applyPorts]
  | cons p ps ih =>
    intro i hi
    have hlt : i < rp.elems.length := by
      simp only [Slice.len, List.length_cons] at hi; omega
    have hidx : rp.index i = some (rp.elems.get ⟨i, hlt⟩) := by
      simp [Slice.index, List.getElem?_eq_getElem hlt]
    have hdrop : rp.elems.drop i = rp.elems.get ⟨i, hlt⟩ :: rp.elems.drop (i + 1) := by
      simp
    have hrest := ih (i + 1) (by simp only [List.length_cons] at hi; omega)
    rw [hdrop, List.zipWith_cons_cons]
    simp only [applyPorts, applyPort_eq svcType rp i p _ hidx, hrest]
    rfl

theorem ports_block_eq (svcType : String) (ep rp : Slice ServicePort) :
    (if ep.len = rp.len then
      match ep with
      | Slice.nil => some Slice.nil
      | Slice.ofList ps => (applyPorts svcType rp 0 ps).map Slice.ofList
    else some ep) = some (mergedPorts svcType ep rp) := by
  unfold mergedPorts
  by_cases h : ep.len = rp.len
  · cases ep with
    | nil => simp [h]
    | ofList ps =>
      have hle : 0 + ps.length ≤ rp.len := by
        have : (Slice.ofList ps).len = ps.length := rfl
        omega
      simp [h, applyPorts_eq svcType rp ps 0 hle]
  · simp [h]

/-! ## The merger and the checkers in closed form -/

theorem applyServerSideValues_eq (ParseIP : String → Option IP) (e r : Service) :
    applyServerSideValues ParseIP e r = some (merged ParseIP e r) := by
  simp only [applyServerSideValues, ports_block_eq, merged, mergedType]
  rfl

theorem ipFamiliesLoop_eq (rf : Slice String) :
    ∀ (xs : List String) (i : Nat), (rf.elems.drop i).length = xs.length →
      ipFamiliesLoop rf i xs = some (decide (xs ≠ rf.elems.drop i)) := by
  intro xs
  induction xs with
  | nil =>
    intro i h
    have : rf.elems.drop i = [] := List.length_eq_zero.mp h
    simp [ipFamiliesLoop, this]
  | cons x xs ih =>
    intro i h
    have hlt : i < rf.elems.length := by
      simp only [List.length_drop, List.length_cons] at h; omega
    have hidx : rf.index i = some (rf.elems.get ⟨i, hlt⟩) := by
      simp [Slice.index, List.getElem?_eq_getElem hlt]
    have hdrop : rf.elems.drop i = rf.elems.get ⟨i, hlt⟩ :: rf.elems.drop (i + 1) := by
      simp
    have hrest := ih (i + 1) (by
      simp only [List.length_drop, List.length_cons] at h ⊢; omega)
    obtain ⟨a, ha⟩ : ∃ a, rf.elems.get ⟨i, hlt⟩ = a := ⟨_, rfl⟩
    rw [ha] at hidx hdrop
    rw [hdrop]
    simp only [ipFamiliesLoop, hidx, hrest, Option.bind_eq_bind, Option.some_bind]
    by_cases hx : x = a
    · subst hx; simp
    · simp [hx]

theorem merged_IPFamilies_nil (ParseIP : String → Option IP) (e r : Service)
    (h : (merged ParseIP e r).Spec.IPFamilies = Slice.nil) :
    r.Spec.IPFamilies = Slice.nil := by
  simp only [merged] at h
  cases he : e.Spec.IPFamilies with
  | nil => simpa [he, Slice.isNil] using h
  | ofList l => simp [he, Slice.isNil] at h

theorem needsRecreate_eq (ParseIP : String → Option IP) (e r : Service) :
    needsRecreate ParseIP e r
      = some (decide ((merged ParseIP e r).Spec.IPFamilies.elems ≠ r.Spec.IPFamilies.elems)
          || decide ((merged ParseIP e r).Spec.ClusterIP ≠ r.Spec.ClusterIP)) := by
  simp only [needsRecreate, applyServerSideValues_eq, Option.bind_eq_bind, Option.some_bind]
  cases hm : (merged ParseIP e r).Spec.IPFamilies with
  | nil =>
    have hr := merged_IPFamilies_nil ParseIP e r hm
    by_cases hc : (merged ParseIP e r).Spec.ClusterIP = r.Spec.ClusterIP <;>
      simp [hr, hc, Slice.elems]
  | ofList fams =>
    have he : (Slice.ofList fams).elems = fams := rfl
    rw [he]
    by_cases hl : fams.length = r.Spec.IPFamilies.len
    · have hloop := ipFamiliesLoop_eq r.Spec.IPFamilies fams 0 (by
        simpa [Slice.len] using hl.symm)
      rw [List.drop_zero] at hloop
      simp only [hl, hloop, ne_eq, not_true_eq_false, if_false, Option.some_bind]
      by_cases hf : fams = r.Spec.IPFamilies.elems <;>
        by_cases hc : (merged ParseIP e r).Spec.ClusterIP = r.Spec.ClusterIP <;>
        simp [hf, hc]
    · have hne : fams ≠ r.Spec.IPFamilies.elems := by
        intro hEq; apply hl; rw [hEq]; rfl
      simp [hl, hne]

theorem needsUpdate_eq (ParseIP : String → Option IP) (e r : Service) :
    needsUpdate ParseIP e r
      = some (!(decide ((merged ParseIP e r).Spec = r.Spec) &&
          LabelsAndAnnotationsAreEqual (merged ParseIP e r).ObjectMeta r.ObjectMeta)) := by
  simp only [needsUpdate, applyServerSideValues_eq, Option.bind_eq_bind, Option.some_bind]

/-! ## Algebra of the closed forms -/

theorem mergePort_self (t : String) (p : ServicePort) : mergePort t p p = p := by
  unfold mergePort
  by_cases h1 : p.TargetPort.IntValue = 0 <;>
    by_cases h2 : (hasNodePort t && decide (p.NodePort = 0)) = true <;>
    simp [h1, h2]

theorem mergePort_idem (t : String) (p q : ServicePort) :
    mergePort t (mergePort t p q) q = mergePort t p q := by
  unfold mergePort
  by_cases h1 : p.TargetPort.IntValue = 0 <;>
    by_cases h2 : hasNodePort t = true <;>
    by_cases h3 : p.NodePort = 0 <;>
    by_cases h4 : q.TargetPort.IntValue = 0 <;>
    by_cases h5 : q.NodePort = 0 <;>
    simp [h1, h2, h3, h4, h5]

theorem mergePort_absorb (t : String) (p q : ServicePort) :
    mergePort t p (mergePort t p q) = mergePort t p q := by
  unfold mergePort
  by_cases h1 : p.TargetPort.IntValue = 0 <;>
    by_cases h2 : hasNodePort t = true <;>
    by_cases h3 : p.NodePort = 0 <;>
    simp [h1, h2, h3]

theorem zipWith_mergePort_self (t : String) (ps : List ServicePort) :
    List.zipWith (mergePort t) ps ps = ps := by
  induction ps with
  | nil => rfl
  | cons p ps ih => simp [mergePort_self, ih]

theorem zipWith_mergePort_idem (t : String) :
    ∀ (ps qs : List ServicePort),
      List.zipWith (mergePort t) (List.zipWith (mergePort t) ps qs) qs
        = List.zipWith (mergePort t) ps qs := by
  intro ps
  induction ps with
  | nil => intro qs; simp
  | cons p ps ih =>
    intro qs
    cases qs with
    | nil => simp
    | cons q qs => simp [mergePort_idem, ih]

theorem zipWith_mergePort_absorb (t : String) :
    ∀ (ps qs : List ServicePort), ps.length = qs.length →
      List.zipWith (mergePort t) ps (List.zipWith (mergePort t) ps qs)
        = List.zipWith (mergePort t) ps qs := by
  intro ps
  induction ps with
  | nil => intro qs _; simp
  | cons p ps ih =>
    intro qs h
    cases qs with
    | nil => simp at h
    | cons q qs =>
      simp only [List.length_cons, Nat.add_right_cancel_iff] at h
      simp [mergePort_absorb, ih qs h]

theorem Slice.elems_ofList {α : Type} (l : List α) : (Slice.ofList l).elems = l := rfl

theorem Slice.elems_nil {α : Type} : (Slice.nil : Slice α).elems = [] := rfl

theorem Slice.len_ofList {α : Type} (l : List α) : (Slice.ofList l).len = l.length := rfl

theorem Slice.len_nil {α : Type} : (Slice.nil : Slice α).len = 0 := rfl

theorem mergedPorts_nil (t : String) (rp : Slice ServicePort) :
    mergedPorts t Slice.nil rp = Slice.nil := by
  unfold mergedPorts
  by_cases h : (Slice.nil : Slice ServicePort).len = rp.len <;> simp [h]

theorem mergedPorts_of_len_eq (t : String) (ps : List ServicePort) (rp : Slice ServicePort)
    (h : ps.length = rp.len) :
    mergedPorts t (Slice.ofList ps) rp
      = Slice.ofList (List.zipWith (mergePort t) ps rp.elems) := by
  unfold mergedPorts
  rw [if_pos (by rw [Slice.len_ofList]; exact h)]

theorem mergedPorts_of_len_ne (t : String) (ep rp : Slice ServicePort) (h : ep.len ≠ rp.len) :
    mergedPorts t ep rp = ep := by
  unfold mergedPorts
  rw [if_neg h]

theorem mergedPorts_len (t : String) (ep rp : Slice ServicePort) :
    (mergedPorts t ep rp).len = ep.len := by
  by_cases h : ep.len = rp.len
  · cases ep with
    | nil => rw [mergedPorts_nil]
    | ofList ps =>
      rw [mergedPorts_of_len_eq t ps rp h, Slice.len_ofList, Slice.len_ofList,
        List.length_zipWith]
      have h2 : ps.length = rp.elems.length := h
      omega
  · rw [mergedPorts_of_len_ne t ep rp h]

theorem mergedPorts_idem (t : String) (ep rp : Slice ServicePort) :
    mergedPorts t (mergedPorts t ep rp) rp = mergedPorts t ep rp := by
  by_cases h : ep.len = rp.len
  · cases ep with
    | nil => rw [mergedPorts_nil, mergedPorts_nil]
    | ofList ps =>
      have h2 : ps.length = rp.elems.length := h
      rw [mergedPorts_of_len_eq t ps rp h,
        mergedPorts_of_len_eq t _ rp (by rw [List.length_zipWith]; unfold Slice.len; omega),
        zipWith_mergePort_idem]
  · rw [mergedPorts_of_len_ne t ep rp h, mergedPorts_of_len_ne t ep rp h]

theorem mergedPorts_absorb (t : String) (ep rp : Slice ServicePort) :
    mergedPorts t ep (mergedPorts t ep rp) = mergedPorts t ep rp := by
  by_cases h : ep.len = rp.len
  · cases ep with
    | nil => rw [mergedPorts_nil, mergedPorts_nil]
    | ofList ps =>
      have h2 : ps.length = rp.elems.length := h
      rw [mergedPorts_of_len_eq t ps rp h,
        mergedPorts_of_len_eq t ps _ (by
          rw [Slice.len_ofList, List.length_zipWith]; omega),
        Slice.elems_ofList, zipWith_mergePort_absorb t ps rp.elems h2]
  · rw [mergedPorts_of_len_ne t ep rp h]
    cases ep with
    | nil => rw [mergedPorts_nil]
    | ofList ps =>
      rw [mergedPorts_of_len_eq t ps _ (Slice.len_ofList ps).symm, Slice.elems_ofList,
        zipWith_mergePort_self]

theorem serviceSpec_eq_of_fields (a b : ServiceSpec)
    (h1 : a.Ports = b.Ports) (h2 : a.Selector = b.Selector) (h3 : a.ClusterIP = b.ClusterIP)
    (h4 : a.ClusterIPs = b.ClusterIPs) (h5 : a.Type_ = b.Type_)
    (h6 : a.ExternalIPs = b.ExternalIPs) (h7 : a.SessionAffinity = b.SessionAffinity)
    (h8 : a.LoadBalancerIP = b.LoadBalancerIP)
    (h9 : a.LoadBalancerSourceRanges = b.LoadBalancerSourceRanges)
    (h10 : a.ExternalName = b.ExternalName)
    (h11 : a.ExternalTrafficPolicy = b.ExternalTrafficPolicy)
    (h12 : a.HealthCheckNodePort = b.HealthCheckNodePort)
    (h13 : a.PublishNotReadyAddresses = b.PublishNotReadyAddresses)
    (h14 : a.SessionAffinityConfig = b.SessionAffinityConfig)
    (h15 : a.IPFamilies = b.IPFamilies) (h16 : a.IPFamilyPolicy = b.IPFamilyPolicy)
    (h17 : a.AllocateLoadBalancerNodePorts = b.AllocateLoadBalancerNodePorts) : a = b := by
  cases a; cases b; simp_all

theorem service_eq_of_fields (a b : Service) (hs : a.Spec = b.Spec)
    (hl : a.ObjectMeta.Labels = b.ObjectMeta.Labels)
    (ha : a.ObjectMeta.Annotations = b.ObjectMeta.Annotations) : a = b := by
  obtain ⟨⟨al, aa⟩, asp⟩ := a
  obtain ⟨⟨bl, ba⟩, bsp⟩ := b
  simp_all

theorem stringMap_union_idem (a b : StringMap) : a ∪ b ∪ b = a ∪ b := by
  apply Finmap.ext_lookup
  intro k
  by_cases h : k ∈ a ∪ b
  · exact Finmap.lookup_union_left h
  · rw [Finmap.lookup_union_right h]
    have hb : k ∉ b := fun hb => h (Finmap.mem_union.mpr (Or.inr hb))
    rw [Finmap.lookup_eq_none.mpr hb, Finmap.lookup_eq_none.mpr h]

theorem stringMap_union_absorb (a b : StringMap) : a ∪ (a ∪ b) = a ∪ b := by
  apply Finmap.ext_lookup
  intro k
  by_cases h : k ∈ a
  · rw [Finmap.lookup_union_left h, Finmap.lookup_union_left h]
  · rw [Finmap.lookup_union_right h]

theorem mergedType_merged_left (ParseIP : String → Option IP) (e r : Service) :
    mergedType (merged ParseIP e r) r = mergedType e r := by
  show (if mergedType e r = "" then r.Spec.Type_ else mergedType e r) = mergedType e r
  unfold mergedType
  by_cases h : e.Spec.Type_ = ""
  · simp [h]
  · simp [h]

theorem mergedType_merged_right (ParseIP : String → Option IP) (e r : Service) :
    mergedType e (merged ParseIP e r) = mergedType e r := by
  show (if e.Spec.Type_ = "" then mergedType e r else e.Spec.Type_) = mergedType e r
  unfold mergedType
  by_cases h : e.Spec.Type_ = "" <;> simp [h]

theorem merged_ClusterIP (ParseIP : String → Option IP) (e r : Service) :
    (merged ParseIP e r).Spec.ClusterIP
      = if mergedType e r = r.Spec.Type_ ∧ e.Spec.ClusterIP = "" ∧
            (ParseIP r.Spec.ClusterIP).isSome then r.Spec.ClusterIP
        else e.Spec.ClusterIP := rfl

theorem merged_ClusterIPs (ParseIP : String → Option IP) (e r : Service) :
    (merged ParseIP e r).Spec.ClusterIPs
      = if mergedType e r = r.Spec.Type_ ∧ e.Spec.ClusterIPs.len = 0 ∧
            validClusterIPs ParseIP r.Spec.ClusterIPs.elems = true then r.Spec.ClusterIPs
        else e.Spec.ClusterIPs := rfl

theorem merged_Type (ParseIP : String → Option IP) (e r : Service) :
    (merged ParseIP e r).Spec.Type_ = mergedType e r := rfl

theorem merged_SessionAffinity (ParseIP : String → Option IP) (e r : Service) :
    (merged ParseIP e r).Spec.SessionAffinity
      = if e.Spec.SessionAffinity = "" then r.Spec.SessionAffinity
        else e.Spec.SessionAffinity := rfl

theorem merged_Ports (ParseIP : String → Option IP) (e r : Service) :
    (merged ParseIP e r).Spec.Ports
      = mergedPorts (mergedType e r) e.Spec.Ports r.Spec.Ports := rfl

theorem merged_HealthCheckNodePort (ParseIP : String → Option IP) (e r : Service) :
    (merged ParseIP e r).Spec.HealthCheckNodePort
      = if e.Spec.HealthCheckNodePort = 0 then r.Spec.HealthCheckNodePort
        else e.Spec.HealthCheckNodePort := rfl

theorem merged_IPFamilies (ParseIP : String → Option IP) (e r : Service) :
    (merged ParseIP e r).Spec.IPFamilies
      = if e.Spec.IPFamilies.isNil then r.Spec.IPFamilies else e.Spec.IPFamilies := rfl

theorem merged_IPFamilyPolicy (ParseIP : String → Option IP) (e r : Service) :
    (merged ParseIP e r).Spec.IPFamilyPolicy
      = if e.Spec.IPFamilyPolicy.isNone then r.Spec.IPFamilyPolicy
        else e.Spec.IPFamilyPolicy := rfl

theorem merged_Labels (ParseIP : String → Option IP) (e r : Service) :
    (merged ParseIP e r).ObjectMeta.Labels = e.ObjectMeta.Labels ∪ r.ObjectMeta.Labels := rfl

theorem merged_Annotations (ParseIP : String → Option IP) (e r : Service) :
    (merged ParseIP e r).ObjectMeta.Annotations
      = e.ObjectMeta.Annotations ∪ r.ObjectMeta.Annotations := rfl

theorem Slice.len_eq_zero_of_isNil {α : Type} (s : Slice α) (h : s.isNil = true) :
    s.len = 0 := by
  cases s with
  | nil => rfl
  | ofList l => simp [Slice.isNil] at h

/-- Running the merger on its own result, against the same reconciled
service, changes nothing. -/
theorem merged_idem (ParseIP : String → Option IP) (e r : Service) :
    merged ParseIP (merged ParseIP e r) r = merged ParseIP e r := by
  have hT := mergedType_merged_left ParseIP e r
  apply service_eq_of_fields
  · apply serviceSpec_eq_of_fields
    · rw [merged_Ports, hT, merged_Ports]; exact mergedPorts_idem _ _ _
    · rfl
    · rw [merged_ClusterIP, hT, merged_ClusterIP]
      split_ifs <;> simp_all
    · rw [merged_ClusterIPs, hT, merged_ClusterIPs]
      split_ifs <;> simp_all
    · rw [merged_Type, hT, merged_Type]
    · rfl
    · rw [merged_SessionAffinity, merged_SessionAffinity]
      split_ifs <;> simp_all
    · rfl
    · rfl
    · rfl
    · rfl
    · rw [merged_HealthCheckNodePort, merged_HealthCheckNodePort]
      split_ifs <;> simp_all
    · rfl
    · rfl
    · rw [merged_IPFamilies, merged_IPFamilies]
      split_ifs <;> simp_all
    · rw [merged_IPFamilyPolicy, merged_IPFamilyPolicy]
      split_ifs <;> simp_all
    · rfl
  · exact stringMap_union_idem _ _
  · exact stringMap_union_idem _ _

/-- Running the merger again from the original expected service, against its
own earlier result, gives that result. -/
theorem merged_absorb (ParseIP : String → Option IP) (e r : Service) :
    merged ParseIP e (merged ParseIP e r) = merged ParseIP e r := by
  have hT := mergedType_merged_right ParseIP e r
  apply service_eq_of_fields
  · apply serviceSpec_eq_of_fields
    · rw [merged_Ports, hT, merged_Ports]; exact mergedPorts_absorb _ _ _
    · rfl
    · rw [merged_ClusterIP, hT, merged_Type, merged_ClusterIP]
      split_ifs <;> simp_all
    · rw [merged_ClusterIPs, hT, merged_Type, merged_ClusterIPs]
      split_ifs <;> simp_all
    · rw [merged_Type, hT, merged_Type]
    · rfl
    · rw [merged_SessionAffinity, merged_SessionAffinity]
      split_ifs <;> simp_all
    · rfl
    · rfl
    · rfl
    · rfl
    · rw [merged_HealthCheckNodePort, merged_HealthCheckNodePort]
      split_ifs <;> simp_all
    · rfl
    · rfl
    · rw [merged_IPFamilies, merged_IPFamilies]
      split_ifs <;> simp_all
    · rw [merged_IPFamilyPolicy, merged_IPFamilyPolicy]
      split_ifs <;> simp_all
    · rfl
  · exact stringMap_union_absorb _ _
  · exact stringMap_union_absorb _ _

theorem UpdateReconciled_eq (m r : Service) : UpdateReconciled m r = m := by
  apply service_eq_of_fields <;> rfl

theorem list_ne_iff_of_index (l1 l2 : List String) :
    l1 ≠ l2 ↔ (l1.length ≠ l2.length ∨ ∃ i, i < l1.length ∧ l1[i]? ≠ l2[i]?) := by
  constructor
  · intro hne
    by_contra hcon
    push_neg at hcon
    apply hne
    apply List.ext_getElem? 
    intro n
    by_cases hn : n < l1.length
    · exact hcon.2 n hn
    · have h1 : l1.length ≤ n := Nat.le_of_not_lt hn
      have h2 : l2.length ≤ n := by rw [← hcon.1]; exact h1
      rw [List.getElem?_eq_none h1, List.getElem?_eq_none h2]
  · rintro (h | ⟨i, _, hi⟩) heq
    · exact h (by rw [heq])
    · exact hi (by rw [heq])

/-! ## The claims -/

/-- C1 (convergence, no infinite update loop): for every desired `e` and
observed `r`, the merger yields a merged desired state `m`; once
`UpdateReconciled` has committed the spec, labels and annotations of `m` to the
observed service, re-running both checkers with the original desired `e`
signals nothing: `needsRecreate` and `needsUpdate` both return false. -/
theorem C1_convergence (ParseIP : String → Option IP) (e r : Service) :
    ∃ m, applyServerSideValues ParseIP e r = some m ∧
      (UpdateReconciled m r).Spec = m.Spec ∧
      (UpdateReconciled m r).ObjectMeta.Labels = m.ObjectMeta.Labels ∧
      (UpdateReconciled m r).ObjectMeta.Annotations = m.ObjectMeta.Annotations ∧
      needsRecreate ParseIP e (UpdateReconciled m r) = some false ∧
      needsUpdate ParseIP e (UpdateReconciled m r) = some false := by
  refine ⟨merged ParseIP e r, applyServerSideValues_eq ParseIP e r, rfl, rfl, rfl, ?_, ?_⟩
  · rw [UpdateReconciled_eq, needsRecreate_eq, merged_absorb]
    simp
  · rw [UpdateReconciled_eq, needsUpdate_eq, merged_absorb]
    simp [LabelsAndAnnotationsAreEqual]

/-- C2 (recreate verdict): for every desired `e` and observed `r`, the merger
yields `m` and `needsRecreate` returns a verdict `b`, and `b` is true if and
only if the IPFamilies of `m` differ from those of `r`, by length or at some
position, or the ClusterIP of `m` differs from that of `r`. In particular the
verdict is false when both fields are unchanged, also when the IPFamilies of
`m` is nil and the code skips the comparison. -/
theorem C2_needsRecreate_iff (ParseIP : String → Option IP) (e r : Service) :
    ∃ m b, applyServerSideValues ParseIP e r = some m ∧
      needsRecreate ParseIP e r = some b ∧
      (b = true ↔
        ((m.Spec.IPFamilies.len ≠ r.Spec.IPFamilies.len ∨
            ∃ i, i < m.Spec.IPFamilies.len ∧
              m.Spec.IPFamilies.index i ≠ r.Spec.IPFamilies.index i) ∨
          m.Spec.ClusterIP ≠ r.Spec.ClusterIP)) := by
  refine ⟨merged ParseIP e r, _, applyServerSideValues_eq ParseIP e r,
    needsRecreate_eq ParseIP e r, ?_⟩
  rw [Bool.or_eq_true, decide_eq_true_eq, decide_eq_true_eq, list_ne_iff_of_index]
  rfl

/-- C3 (no-op stability): if the merged desired state that the merger yields
for `e` against `r` has the spec, the labels and the annotations of `r`, then
`needsRecreate` and `needsUpdate` both return false. -/
theorem C3_noop_stability (ParseIP : String → Option IP) (e r m : Service)
    (hm : applyServerSideValues ParseIP e r = some m)
    (hSpec : m.Spec = r.Spec)
    (hLabels : m.ObjectMeta.Labels = r.ObjectMeta.Labels)
    (hAnnotations : m.ObjectMeta.Annotations = r.ObjectMeta.Annotations) :
    needsRecreate ParseIP e r = some false ∧ needsUpdate ParseIP e r = some false := by
  rw [applyServerSideValues_eq] at hm
  have hmm : merged ParseIP e r = m := Option.some.inj hm
  rw [needsRecreate_eq, needsUpdate_eq, hmm]
  constructor
  · simp [hSpec]
  · simp [hSpec, LabelsAndAnnotationsAreEqual, hLabels, hAnnotations]

/-- The witness of C3: a desired service that leaves the server-assigned
fields unset, against the service the api server returns. -/
theorem C3_noop_stability_witness :
    applyServerSideValues parseIPDotted desiredSvc observedSvc = some observedSvc ∧
      needsRecreate parseIPDotted desiredSvc observedSvc = some false ∧
      needsUpdate parseIPDotted desiredSvc observedSvc = some false :=
  ⟨by decide,
    C3_noop_stability parseIPDotted desiredSvc observedSvc observedSvc (by decide) rfl rfl rfl⟩

/-- C4 (idempotence): for every desired `e` and observed `r` the merger yields
a merged state `m`, and running it again on `m` (the code applies it to the
same object in `needsRecreate` and again in `needsUpdate`) yields `m` again;
the two checkers return the same verdicts on the merged `m` as on `e`. A second
run from a copy of `e` is the same application of the same function. -/
theorem C4_idempotence (ParseIP : String → Option IP) (e r : Service) :
    ∃ m recreate update,
      applyServerSideValues ParseIP e r = some m ∧
      applyServerSideValues ParseIP m r = some m ∧
      needsRecreate ParseIP e r = some recreate ∧
      needsRecreate ParseIP m r = some recreate ∧
      needsUpdate ParseIP e r = some update ∧
      needsUpdate ParseIP m r = some update := by
  refine ⟨merged ParseIP e r, _, _, applyServerSideValues_eq ParseIP e r, ?_,
    needsRecreate_eq ParseIP e r, ?_, needsUpdate_eq ParseIP e r, ?_⟩
  · rw [applyServerSideValues_eq, merged_idem]
  · rw [needsRecreate_eq, merged_idem]
  · rw [needsUpdate_eq, merged_idem]

/-- C5 (address immutability): for a desired `e` and an observed `r` of the
same type, if the ClusterIP of `e` is a valid IP literal and differs from the
ClusterIP of `r`, then `needsRecreate` returns true. The empty string is not
an IP literal (`hEmpty`, a fact of `net.ParseIP`). -/
theorem C5_address_immutability (ParseIP : String → Option IP) (e r : Service)
    (hEmpty : ParseIP "" = none)
    (_hType : e.Spec.Type_ = r.Spec.Type_)
    (hValid : (ParseIP e.Spec.ClusterIP).isSome = true)
    (hDiff : e.Spec.ClusterIP ≠ r.Spec.ClusterIP) :
    needsRecreate ParseIP e r = some true := by
  have hne : e.Spec.ClusterIP ≠ "" := by
    intro h; rw [h, hEmpty] at hValid; simp at hValid
  have hkeep : (merged ParseIP e r).Spec.ClusterIP = e.Spec.ClusterIP := by
    rw [merged_ClusterIP, if_neg (fun h => hne h.2.1)]
  rw [needsRecreate_eq, hkeep]
  simp [hDiff]

/-- The witness of C5: the desired address 10.0.0.9 against the observed
address 10.0.0.5, both services of type ClusterIP. -/
theorem C5_address_immutability_witness :
    needsRecreate parseIPDotted
      { desiredSvc with Spec := { desiredSvc.Spec with ClusterIP := "10.0.0.9" } }
      observedSvc = some true :=
  C5_address_immutability parseIPDotted
    { desiredSvc with Spec := { desiredSvc.Spec with ClusterIP := "10.0.0.9" } }
    observedSvc (by decide) (by decide) (by decide) (by decide)

/-- The counterexample to C6 as stated: the desired service leaves IPFamilies
nil, which is the empty list and so a strict prefix of the observed
IPv4, IPv6; the merger adopts the observed list and `needsRecreate` returns
false. -/
theorem C6_counterexample :
    observedSvc.Spec.IPFamilies.elems ≠ [] ∧
      desiredSvc.Spec.IPFamilies.elems <+: observedSvc.Spec.IPFamilies.elems ∧
      desiredSvc.Spec.IPFamilies.elems ≠ observedSvc.Spec.IPFamilies.elems ∧
      needsRecreate parseIPDotted desiredSvc observedSvc = some false := by
  refine ⟨by decide, ⟨["IPv4", "IPv6"], rfl⟩, by decide, by decide⟩

/-- C6 as amended (address-family immutability): let the observed `r` have a
non-empty IPFamilies list. If the IPFamilies of the desired `e` is a non-nil
slice that is a reordering of the list of `r` differing from it at some
position, or a truncation of it (a strict prefix, the empty non-nil list
included), then `needsRecreate` returns true. If the IPFamilies of `e` is
identical to that of `r`, `needsRecreate` returns true exactly when the merged
ClusterIP differs from the ClusterIP of `r`. -/
theorem C6_family_immutability (ParseIP : String → Option IP) (e r : Service)
    (_hr : r.Spec.IPFamilies.elems ≠ []) :
    (e.Spec.IPFamilies.isNil = false →
      ((e.Spec.IPFamilies.elems.Perm r.Spec.IPFamilies.elems ∧
          e.Spec.IPFamilies.elems ≠ r.Spec.IPFamilies.elems) ∨
        (e.Spec.IPFamilies.elems <+: r.Spec.IPFamilies.elems ∧
          e.Spec.IPFamilies.elems ≠ r.Spec.IPFamilies.elems)) →
      needsRecreate ParseIP e r = some true) ∧
    (e.Spec.IPFamilies.elems = r.Spec.IPFamilies.elems →
      ∃ m, applyServerSideValues ParseIP e r = some m ∧
        needsRecreate ParseIP e r = some (decide (m.Spec.ClusterIP ≠ r.Spec.ClusterIP))) := by
  constructor
  · intro hnil hchange
    have hne : e.Spec.IPFamilies.elems ≠ r.Spec.IPFamilies.elems := by
      rcases hchange with h | h <;> exact h.2
    have hkeep : (merged ParseIP e r).Spec.IPFamilies = e.Spec.IPFamilies := by
      rw [merged_IPFamilies, hnil]; rfl
    rw [needsRecreate_eq, hkeep]
    simp [hne]
  · intro hsame
    refine ⟨merged ParseIP e r, applyServerSideValues_eq ParseIP e r, ?_⟩
    have hm : (merged ParseIP e r).Spec.IPFamilies.elems = r.Spec.IPFamilies.elems := by
      rw [merged_IPFamilies]
      by_cases h : e.Spec.IPFamilies.isNil = true
      · rw [if_pos h]
      · rw [if_neg h]; exact hsame
    rw [needsRecreate_eq, hm]
    simp

/-- The witness of C6: the desired IPFamilies is the empty non-nil list, a
truncation of the observed IPv4, IPv6. -/
theorem C6_family_immutability_witness :
    needsRecreate parseIPDotted
      { desiredSvc with Spec := { desiredSvc.Spec with IPFamilies := Slice.ofList [] } }
      observedSvc = some true :=
  (C6_family_immutability parseIPDotted
    { desiredSvc with Spec := { desiredSvc.Spec with IPFamilies := Slice.ofList [] } }
    observedSvc (by decide)).1 (by decide) (Or.inr ⟨⟨["IPv4", "IPv6"], rfl⟩, by decide⟩)

/-- C7 (ClusterIP adoption guards): the merged ClusterIP is that of `r` when
the type is unchanged after type defaulting (the type of `e` is unset or
equal to that of `r`), the ClusterIP of `e` is the empty string and the
ClusterIP of `r` parses as an IP literal; otherwise it is the ClusterIP of `e`,
unchanged. -/
theorem C7_clusterIP_adoption (ParseIP : String → Option IP) (e r : Service) :
    ∃ m, applyServerSideValues ParseIP e r = some m ∧
      m.Spec.ClusterIP =
        if (e.Spec.Type_ = "" ∨ e.Spec.Type_ = r.Spec.Type_) ∧ e.Spec.ClusterIP = "" ∧
            (ParseIP r.Spec.ClusterIP).isSome = true then r.Spec.ClusterIP
        else e.Spec.ClusterIP := by
  refine ⟨merged ParseIP e r, applyServerSideValues_eq ParseIP e r, ?_⟩
  rw [merged_ClusterIP]
  have hT : mergedType e r = r.Spec.Type_ ↔ (e.Spec.Type_ = "" ∨ e.Spec.Type_ = r.Spec.Type_) := by
    unfold mergedType
    by_cases h : e.Spec.Type_ = ""
    · simp [h]
    · simp [h]
  simp only [hT]

theorem validClusterIPs_iff (ParseIP : String → Option IP) (l : List String) :
    validClusterIPs ParseIP l = true ↔ ∀ ip ∈ l, (ParseIP ip).isSome = true := by
  induction l with
  | nil => simp [validClusterIPs]
  | cons ip rest ih =>
    unfold validClusterIPs
    cases h : ParseIP ip with
    | none => simp [h]
    | some a => simp [h, ih]

theorem mergedType_eq_iff (e r : Service) :
    mergedType e r = r.Spec.Type_ ↔ (e.Spec.Type_ = "" ∨ e.Spec.Type_ = r.Spec.Type_) := by
  unfold mergedType
  by_cases h : e.Spec.Type_ = ""
  · simp [h]
  · simp [h]

theorem stringMap_union_self (a : StringMap) : a ∪ a = a := by
  apply Finmap.ext_lookup
  intro k
  by_cases h : k ∈ a
  · exact Finmap.lookup_union_left h
  · exact Finmap.lookup_union_right h

theorem mergedPorts_self (t : String) (ports : Slice ServicePort) :
    mergedPorts t ports ports = ports := by
  cases ports with
  | nil => exact mergedPorts_nil t _
  | ofList ps =>
    rw [mergedPorts_of_len_eq t ps _ (Slice.len_ofList ps).symm, Slice.elems_ofList,
      zipWith_mergePort_self]

/-- C8 (ClusterIPs adoption): the merged ClusterIPs is that of `r` when the
type is unchanged after type defaulting, the ClusterIPs of `e` is empty and
every element of the ClusterIPs of `r` parses as an IP literal; when a guard
fails, so when a single element does not parse, it is the ClusterIPs of `e`,
unchanged. When the guards hold and no other field of `e` differs from `r`,
`needsUpdate` returns false. -/
theorem C8_clusterIPs_adoption (ParseIP : String → Option IP) (e r : Service) :
    (∃ m, applyServerSideValues ParseIP e r = some m ∧
      m.Spec.ClusterIPs =
        if (e.Spec.Type_ = "" ∨ e.Spec.Type_ = r.Spec.Type_) ∧ e.Spec.ClusterIPs.len = 0 ∧
            (∀ ip ∈ r.Spec.ClusterIPs.elems, (ParseIP ip).isSome = true) then
          r.Spec.ClusterIPs
        else e.Spec.ClusterIPs) ∧
    (e.Spec.ClusterIPs.len = 0 →
      (∀ ip ∈ r.Spec.ClusterIPs.elems, (ParseIP ip).isSome = true) →
      { e.Spec with ClusterIPs := r.Spec.ClusterIPs } = r.Spec →
      e.ObjectMeta = r.ObjectMeta →
      needsUpdate ParseIP e r = some false) := by
  constructor
  · refine ⟨merged ParseIP e r, applyServerSideValues_eq ParseIP e r, ?_⟩
    rw [merged_ClusterIPs]
    simp only [mergedType_eq_iff, validClusterIPs_iff]
  · intro hlen hvalid hspec hmeta
    have hf : ∀ {β : Type} (f : ServiceSpec → β),
        f { e.Spec with ClusterIPs := r.Spec.ClusterIPs } = f r.Spec :=
      fun f => congrArg f hspec
    have hType : e.Spec.Type_ = r.Spec.Type_ := hf ServiceSpec.Type_
    have hT : mergedType e r = r.Spec.Type_ := (mergedType_eq_iff e r).mpr (Or.inr hType)
    have hm : (merged ParseIP e r).Spec = r.Spec := by
      apply serviceSpec_eq_of_fields
      · rw [merged_Ports, show e.Spec.Ports = r.Spec.Ports from hf ServiceSpec.Ports]
        exact mergedPorts_self _ _
      · exact hf ServiceSpec.Selector
      · rw [merged_ClusterIP,
          show e.Spec.ClusterIP = r.Spec.ClusterIP from hf ServiceSpec.ClusterIP]
        exact ite_self _
      · rw [merged_ClusterIPs, if_pos ⟨hT, hlen, (validClusterIPs_iff _ _).mpr hvalid⟩]
      · rw [merged_Type, hT]
      · exact hf ServiceSpec.ExternalIPs
      · rw [merged_SessionAffinity,
          show e.Spec.SessionAffinity = r.Spec.SessionAffinity from
            hf ServiceSpec.SessionAffinity]
        exact ite_self _
      · exact hf ServiceSpec.LoadBalancerIP
      · exact hf ServiceSpec.LoadBalancerSourceRanges
      · exact hf ServiceSpec.ExternalName
      · exact hf ServiceSpec.ExternalTrafficPolicy
      · rw [merged_HealthCheckNodePort,
          show e.Spec.HealthCheckNodePort = r.Spec.HealthCheckNodePort from
            hf ServiceSpec.HealthCheckNodePort]
        exact ite_self _
      · exact hf ServiceSpec.PublishNotReadyAddresses
      · exact hf ServiceSpec.SessionAffinityConfig
      · rw [merged_IPFamilies,
          show e.Spec.IPFamilies = r.Spec.IPFamilies from hf ServiceSpec.IPFamilies]
        exact ite_self _
      · rw [merged_IPFamilyPolicy,
          show e.Spec.IPFamilyPolicy = r.Spec.IPFamilyPolicy from
            hf ServiceSpec.IPFamilyPolicy]
        exact ite_self _
      · exact hf ServiceSpec.AllocateLoadBalancerNodePorts
    have hl : (merged ParseIP e r).ObjectMeta.Labels = r.ObjectMeta.Labels := by
      rw [merged_Labels, hmeta]; exact stringMap_union_self _
    have ha : (merged ParseIP e r).ObjectMeta.Annotations = r.ObjectMeta.Annotations := by
      rw [merged_Annotations, hmeta]; exact stringMap_union_self _
    rw [needsUpdate_eq]
    simp [hm, hl, ha, LabelsAndAnnotationsAreEqual]

/-- The witness of C8, the scenario of the claim: desired ClusterIPs empty,
observed ClusterIPs 10.0.0.5 and 10.0.0.6, same type, no other field
different. The merged ClusterIPs is the observed list and `needsUpdate`
returns false. -/
theorem C8_clusterIPs_adoption_witness :
    desiredNoClusterIPs.Spec.ClusterIPs = Slice.ofList [] ∧
      observedSvc.Spec.ClusterIPs = Slice.ofList ["10.0.0.5", "10.0.0.6"] ∧
      (applyServerSideValues parseIPDotted desiredNoClusterIPs observedSvc).map
          (fun m => m.Spec.ClusterIPs) = some (Slice.ofList ["10.0.0.5", "10.0.0.6"]) ∧
      needsUpdate parseIPDotted desiredNoClusterIPs observedSvc = some false :=
  ⟨rfl, rfl, by decide,
    (C8_clusterIPs_adoption parseIPDotted desiredNoClusterIPs observedSvc).2
      (by decide) (by decide) (by decide) (by decide)⟩

theorem mergePort_TargetPort_of_zero (t : String) (p q : ServicePort)
    (h : p.TargetPort.IntValue = 0) : (mergePort t p q).TargetPort = q.TargetPort := by
  unfold mergePort
  by_cases h2 : (hasNodePort t && decide (q.NodePort = 0)) = true <;>
    by_cases h3 : (hasNodePort t && decide (p.NodePort = 0)) = true <;>
    simp [h, h3]

theorem zeroIntOrString_IntValue : zeroIntOrString.IntValue = 0 := by decide

/-- C9 (port positional defaulting): (i) when the Ports of `e` and `r` have
the same length, at every index where the TargetPort of `e` is unset (the zero
value) the merged port has the TargetPort of `r` at that index; (ii) when the
lengths differ, the merged Ports is the Ports of `e` exactly, and `needsUpdate`
returns true. -/
theorem C9_port_positional_defaulting (ParseIP : String → Option IP) (e r : Service) :
    (e.Spec.Ports.len = r.Spec.Ports.len →
      ∃ m, applyServerSideValues ParseIP e r = some m ∧
        ∀ i p q, e.Spec.Ports.index i = some p → r.Spec.Ports.index i = some q →
          p.TargetPort = zeroIntOrString →
          ∃ p', m.Spec.Ports.index i = some p' ∧ p'.TargetPort = q.TargetPort) ∧
    (e.Spec.Ports.len ≠ r.Spec.Ports.len →
      ∃ m, applyServerSideValues ParseIP e r = some m ∧
        m.Spec.Ports = e.Spec.Ports ∧
        needsUpdate ParseIP e r = some true) := by
  constructor
  · intro hlen
    refine ⟨merged ParseIP e r, applyServerSideValues_eq ParseIP e r, ?_⟩
    intro i p q hp hq hzero
    rw [merged_Ports]
    cases hps : e.Spec.Ports with
    | nil => rw [hps] at hp; simp [Slice.index, Slice.elems] at hp
    | ofList ps =>
      rw [hps] at hp hlen
      rw [mergedPorts_of_len_eq _ ps _ hlen]
      refine ⟨mergePort (mergedType e r) p q, ?_, ?_⟩
      · have hp2 : ps[i]? = some p := hp
        have hq2 : r.Spec.Ports.elems[i]? = some q := hq
        show (List.zipWith (mergePort (mergedType e r)) ps r.Spec.Ports.elems)[i]? = _
        rw [List.getElem?_zipWith, hp2, hq2]
      · apply mergePort_TargetPort_of_zero
        rw [hzero]; exact zeroIntOrString_IntValue
  · intro hlen
    have hports : (merged ParseIP e r).Spec.Ports = e.Spec.Ports := by
      rw [merged_Ports]; exact mergedPorts_of_len_ne _ _ _ hlen
    refine ⟨merged ParseIP e r, applyServerSideValues_eq ParseIP e r, hports, ?_⟩
    have hne : (merged ParseIP e r).Spec ≠ r.Spec := by
      intro h
      apply hlen
      rw [← hports, h]
    rw [needsUpdate_eq]
    simp [hne]

/-- The witness of C9: one desired port with an unset target port against the
one observed port (equal lengths), and two desired ports against the one
observed port (unequal lengths). -/
theorem C9_port_positional_defaulting_witness :
    (∃ m, applyServerSideValues parseIPDotted desiredSvc observedSvc = some m ∧
      ∃ p', m.Spec.Ports.index 0 = some p' ∧ p'.TargetPort = FromInt 9200) ∧
    (∃ m, applyServerSideValues parseIPDotted desiredTwoPorts observedSvc = some m ∧
      m.Spec.Ports = desiredTwoPorts.Spec.Ports ∧
      needsUpdate parseIPDotted desiredTwoPorts observedSvc = some true) := by
  constructor
  · obtain ⟨m, hm, h⟩ :=
      (C9_port_positional_defaulting parseIPDotted desiredSvc observedSvc).1 (by decide)
    exact ⟨m, hm, h 0 _ _ rfl rfl rfl⟩
  · exact (C9_port_positional_defaulting parseIPDotted desiredTwoPorts observedSvc).2
      (by decide)

/-- C10 at the failing input: the desired target port is the named port
"http", which is not the zero value; the observed target port is 9200. The
merger replaces "http" by 9200, because `IntValue` of a named port is 0, and
`needsUpdate` returns false. -/
theorem C10_named_port_overwritten :
    (desiredNamedPort.Spec.Ports.index 0).map (fun p => p.TargetPort)
        = some (FromString "http") ∧
      FromString "http" ≠ zeroIntOrString ∧
      (FromString "http").IntValue = 0 ∧
      (observedSvc.Spec.Ports.index 0).map (fun p => p.TargetPort) = some (FromInt 9200) ∧
      (applyServerSideValues parseIPDotted desiredNamedPort observedSvc).map
          (fun m => (m.Spec.Ports.index 0).map (fun p => p.TargetPort))
        = some (some (FromInt 9200)) ∧
      needsUpdate parseIPDotted desiredNamedPort observedSvc = some false := by
  refine ⟨by decide, by decide, by decide, by decide, by decide, by decide⟩

/-- What the code does for the target port: at an index present in both port
lists of equal length, the merged target port is that of `e` whenever
`IntValue` of it is not 0. -/
theorem targetPort_kept_of_IntValue_ne_zero (ParseIP : String → Option IP) (e r : Service) :
    ∃ m, applyServerSideValues ParseIP e r = some m ∧
      ∀ i p, e.Spec.Ports.index i = some p → p.TargetPort.IntValue ≠ 0 →
        ∃ p', m.Spec.Ports.index i = some p' ∧ p'.TargetPort = p.TargetPort := by
  refine ⟨merged ParseIP e r, applyServerSideValues_eq ParseIP e r, ?_⟩
  intro i p hp hne
  rw [merged_Ports]
  by_cases hlen : e.Spec.Ports.len = r.Spec.Ports.len
  · cases hps : e.Spec.Ports with
    | nil => rw [hps] at hp; simp [Slice.index, Slice.elems] at hp
    | ofList ps =>
      rw [hps] at hp hlen
      rw [mergedPorts_of_len_eq _ ps _ hlen]
      have hp2 : ps[i]? = some p := hp
      have hi : i < ps.length := by
        by_contra hcon
        rw [List.getElem?_eq_none (Nat.le_of_not_lt hcon)] at hp2
        exact Option.noConfusion hp2
      have hi2 : i < r.Spec.Ports.elems.length := by
        have : ps.length = r.Spec.Ports.elems.length := hlen
        omega
      refine ⟨mergePort (mergedType e r) p (r.Spec.Ports.elems.get ⟨i, hi2⟩), ?_, ?_⟩
      · show (List.zipWith (mergePort (mergedType e r)) ps r.Spec.Ports.elems)[i]? = _
        rw [List.getElem?_zipWith, hp2, List.getElem?_eq_getElem hi2]
        rfl
      · unfold mergePort
        by_cases h3 : (hasNodePort (mergedType e r) && decide (p.NodePort = 0)) = true <;>
          simp [hne, h3]
  · rw [mergedPorts_of_len_ne _ _ _ hlen]
    exact ⟨p, hp, rfl⟩

theorem hasNodePort_eq_false_iff (t : String) :
    hasNodePort t = false ↔ (t ≠ ServiceTypeNodePort ∧ t ≠ ServiceTypeLoadBalancer) := by
  unfold hasNodePort
  simp

theorem hasNodePort_eq_true_iff (t : String) :
    hasNodePort t = true ↔ (t = ServiceTypeNodePort ∨ t = ServiceTypeLoadBalancer) := by
  unfold hasNodePort
  simp

theorem mergePort_NodePort_of_not_hasNodePort (t : String) (p q : ServicePort)
    (h : hasNodePort t = false) : (mergePort t p q).NodePort = p.NodePort := by
  unfold mergePort
  by_cases h1 : p.TargetPort.IntValue = 0 <;> simp [h, h1]

theorem mergePort_NodePort_of_zero (t : String) (p q : ServicePort)
    (h : hasNodePort t = true) (hz : p.NodePort = 0) :
    (mergePort t p q).NodePort = q.NodePort := by
  unfold mergePort
  by_cases h1 : p.TargetPort.IntValue = 0 <;> simp [h, h1, hz]

theorem Slice.index_nil {α : Type} (i : Nat) : (Slice.nil : Slice α).index i = none := rfl

theorem Slice.index_lt_len {α : Type} (s : Slice α) (i : Nat) (a : α)
    (h : s.index i = some a) : i < s.len := by
  by_contra hcon
  have hnone : s.index i = none := List.getElem?_eq_none (Nat.le_of_not_lt hcon)
  rw [hnone] at h
  exact Option.noConfusion h

theorem Slice.index_of_lt_len {α : Type} (s : Slice α) (i : Nat) (h : i < s.len) :
    ∃ a, s.index i = some a :=
  ⟨s.elems.get ⟨i, h⟩, List.getElem?_eq_getElem h⟩

/-- With port lists of equal length, the merged port at an index is the
iteration result on the two ports found there. -/
theorem mergedPorts_index_of_len_eq (t : String) (ep rp : Slice ServicePort) (i : Nat)
    (p q : ServicePort) (hlen : ep.len = rp.len) (hp : ep.index i = some p)
    (hq : rp.index i = some q) :
    (mergedPorts t ep rp).index i = some (mergePort t p q) := by
  cases ep with
  | nil => rw [Slice.index_nil] at hp; exact Option.noConfusion hp
  | ofList ps =>
    rw [mergedPorts_of_len_eq t ps rp hlen]
    have hp2 : ps[i]? = some p := hp
    have hq2 : rp.elems[i]? = some q := hq
    show (List.zipWith (mergePort t) ps rp.elems)[i]? = _
    rw [List.getElem?_zipWith, hp2, hq2]

/-- C11 (NodePort gating): the merged type is the type of `e`, or that of `r`
when `e` leaves it unset. If the merged type is neither NodePort nor
LoadBalancer, every merged port keeps the NodePort of `e` at its index, also
when the lengths match and that NodePort is 0. If the merged type is NodePort
or LoadBalancer and the port lists have the same length, a port of `e` with
NodePort 0 takes the NodePort of `r` at the same index. -/
theorem C11_nodePort_gating (ParseIP : String → Option IP) (e r : Service) :
    ∃ m, applyServerSideValues ParseIP e r = some m ∧
      m.Spec.Type_ = (if e.Spec.Type_ = "" then r.Spec.Type_ else e.Spec.Type_) ∧
      ((m.Spec.Type_ ≠ ServiceTypeNodePort ∧ m.Spec.Type_ ≠ ServiceTypeLoadBalancer) →
        ∀ i p, e.Spec.Ports.index i = some p →
          ∃ p', m.Spec.Ports.index i = some p' ∧ p'.NodePort = p.NodePort) ∧
      ((m.Spec.Type_ = ServiceTypeNodePort ∨ m.Spec.Type_ = ServiceTypeLoadBalancer) →
        e.Spec.Ports.len = r.Spec.Ports.len →
        ∀ i p q, e.Spec.Ports.index i = some p → r.Spec.Ports.index i = some q →
          p.NodePort = 0 →
          ∃ p', m.Spec.Ports.index i = some p' ∧ p'.NodePort = q.NodePort) := by
  refine ⟨merged ParseIP e r, applyServerSideValues_eq ParseIP e r, rfl, ?_, ?_⟩
  · intro hT i p hp
    have hno : hasNodePort (mergedType e r) = false := (hasNodePort_eq_false_iff _).mpr hT
    rw [merged_Ports]
    by_cases hlen : e.Spec.Ports.len = r.Spec.Ports.len
    · obtain ⟨q, hq⟩ := Slice.index_of_lt_len r.Spec.Ports i
        (by rw [← hlen]; exact Slice.index_lt_len _ _ _ hp)
      exact ⟨_, mergedPorts_index_of_len_eq _ _ _ i p q hlen hp hq,
        mergePort_NodePort_of_not_hasNodePort _ p q hno⟩
    · rw [mergedPorts_of_len_ne _ _ _ hlen]
      exact ⟨p, hp, rfl⟩
  · intro hT hlen i p q hp hq hz
    have hyes : hasNodePort (mergedType e r) = true := (hasNodePort_eq_true_iff _).mpr hT
    rw [merged_Ports]
    exact ⟨_, mergedPorts_index_of_len_eq _ _ _ i p q hlen hp hq,
      mergePort_NodePort_of_zero _ p q hyes hz⟩

/-- The witness of C11: a desired ClusterIP service against an observed one
that carries the node port 30920 (not adopted), and a desired NodePort service
against an observed NodePort service with the node port 30920 (adopted). -/
theorem C11_nodePort_gating_witness :
    (∃ m, applyServerSideValues parseIPDotted desiredSvc observedWithNodePort = some m ∧
      ∃ p', m.Spec.Ports.index 0 = some p' ∧ p'.NodePort = 0) ∧
    (∃ m, applyServerSideValues parseIPDotted desiredNodePortSvc observedNodePortSvc = some m ∧
      ∃ p', m.Spec.Ports.index 0 = some p' ∧ p'.NodePort = 30920) := by
  constructor
  · obtain ⟨m, hm, hT, h1, _⟩ :=
      C11_nodePort_gating parseIPDotted desiredSvc observedWithNodePort
    have hT2 : m.Spec.Type_ = "ClusterIP" := hT
    exact ⟨m, hm, h1 (by rw [hT2]; decide) 0 _ rfl⟩
  · obtain ⟨m, hm, hT, _, h2⟩ :=
      C11_nodePort_gating parseIPDotted desiredNodePortSvc observedNodePortSvc
    have hT2 : m.Spec.Type_ = "NodePort" := hT
    exact ⟨m, hm, h2 (Or.inl hT2) (by decide) 0 _ _ rfl rfl rfl⟩

theorem MergePreservingExistingKeys_lookup_of_mem (dest src : StringMap) (k : String)
    (h : k ∈ dest) :
    (MergePreservingExistingKeys dest src).lookup k = dest.lookup k :=
  Finmap.lookup_union_left h

theorem MergePreservingExistingKeys_lookup_of_not_mem (dest src : StringMap) (k : String)
    (h : k ∉ dest) :
    (MergePreservingExistingKeys dest src).lookup k = src.lookup k :=
  Finmap.lookup_union_right h

theorem merge_ne_of_lookup_ne (dest src : StringMap) (k v : String)
    (hd : dest.lookup k = some v) (hs : src.lookup k ≠ some v) :
    MergePreservingExistingKeys dest src ≠ src := by
  intro heq
  have hmem : k ∈ dest := by
    by_contra hcon
    rw [Finmap.lookup_eq_none.mpr hcon] at hd
    exact Option.noConfusion hd
  have h1 := MergePreservingExistingKeys_lookup_of_mem dest src k hmem
  rw [heq, hd] at h1
  exact hs h1

/-- C12 (metadata merge): in the merged annotations, and likewise in the
merged labels, a key present in `e` has the value of `e`, and a key absent from
`e` has whatever `r` holds for it (its value in `r`, or nothing), so no other
key appears. Whenever a key of `e` has in `r` a different value or none,
`needsUpdate` returns true. -/
theorem C12_metadata_merge (ParseIP : String → Option IP) (e r : Service) :
    ∃ m, applyServerSideValues ParseIP e r = some m ∧
      (∀ k, (k ∈ e.ObjectMeta.Annotations →
            m.ObjectMeta.Annotations.lookup k = e.ObjectMeta.Annotations.lookup k) ∧
          (k ∉ e.ObjectMeta.Annotations →
            m.ObjectMeta.Annotations.lookup k = r.ObjectMeta.Annotations.lookup k)) ∧
      (∀ k, (k ∈ e.ObjectMeta.Labels →
            m.ObjectMeta.Labels.lookup k = e.ObjectMeta.Labels.lookup k) ∧
          (k ∉ e.ObjectMeta.Labels →
            m.ObjectMeta.Labels.lookup k = r.ObjectMeta.Labels.lookup k)) ∧
      (((∃ k v, e.ObjectMeta.Annotations.lookup k = some v ∧
            r.ObjectMeta.Annotations.lookup k ≠ some v) ∨
          (∃ k v, e.ObjectMeta.Labels.lookup k = some v ∧
            r.ObjectMeta.Labels.lookup k ≠ some v)) →
        needsUpdate ParseIP e r = some true) := by
  refine ⟨merged ParseIP e r, applyServerSideValues_eq ParseIP e r, ?_, ?_, ?_⟩
  · intro k
    exact ⟨MergePreservingExistingKeys_lookup_of_mem _ _ k,
      MergePreservingExistingKeys_lookup_of_not_mem _ _ k⟩
  · intro k
    exact ⟨MergePreservingExistingKeys_lookup_of_mem _ _ k,
      MergePreservingExistingKeys_lookup_of_not_mem _ _ k⟩
  · intro h
    rw [needsUpdate_eq]
    rcases h with ⟨k, v, hd, hs⟩ | ⟨k, v, hd, hs⟩
    · have hne : (merged ParseIP e r).ObjectMeta.Annotations ≠ r.ObjectMeta.Annotations :=
        merge_ne_of_lookup_ne _ _ k v hd hs
      simp [LabelsAndAnnotationsAreEqual, hne]
    · have hne : (merged ParseIP e r).ObjectMeta.Labels ≠ r.ObjectMeta.Labels :=
        merge_ne_of_lookup_ne _ _ k v hd hs
      simp [LabelsAndAnnotationsAreEqual, hne]

/-- The witness of C12, the scenario of the claim: desired annotations a:1
against observed annotations a:2, b:3 give the merged annotations a:1, b:3,
and `needsUpdate` returns true. -/
theorem C12_metadata_merge_witness :
    desiredAnnotated.ObjectMeta.Annotations = Finmap.singleton "a" "1" ∧
      observedAnnotated.ObjectMeta.Annotations = (Finmap.singleton "b" "3").insert "a" "2" ∧
      (applyServerSideValues parseIPDotted desiredAnnotated observedAnnotated).map
          (fun m => m.ObjectMeta.Annotations)
        = some ((Finmap.singleton "b" "3").insert "a" "1") ∧
      needsUpdate parseIPDotted desiredAnnotated observedAnnotated = some true := by
  refine ⟨rfl, rfl, by decide, ?_⟩
  obtain ⟨_, _, _, _, h⟩ := C12_metadata_merge parseIPDotted desiredAnnotated observedAnnotated
  exact h (Or.inl ⟨"a", "1", by decide, by decide⟩)

/-- C13 at the failing input: the desired IPFamilies is the empty non-nil
list, which is unset in the sense of the claim, and the observed one is
IPv4, IPv6. The merger tests for nil only, so it keeps the empty list instead
of taking the observed list, and `needsRecreate` returns true. -/
theorem C13_empty_families_kept :
    desiredEmptyFamilies.Spec.IPFamilies = Slice.ofList [] ∧
      desiredEmptyFamilies.Spec.IPFamilies.len = 0 ∧
      observedSvc.Spec.IPFamilies = Slice.ofList ["IPv4", "IPv6"] ∧
      (applyServerSideValues parseIPDotted desiredEmptyFamilies observedSvc).map
          (fun m => m.Spec.IPFamilies) = some (Slice.ofList []) ∧
      (applyServerSideValues parseIPDotted desiredEmptyFamilies observedSvc).map
          (fun m => m.Spec.IPFamilies) ≠ some observedSvc.Spec.IPFamilies ∧
      needsRecreate parseIPDotted desiredEmptyFamilies observedSvc = some true := by
  refine ⟨rfl, rfl, rfl, by decide, by decide, by decide⟩

/-- An empty non-nil IPFamilies on the desired service signals a recreate
against every observed service that has address families, so on every cycle
once the server has assigned them. -/
theorem empty_families_recreate_every_cycle (ParseIP : String → Option IP) (e r : Service)
    (he : e.Spec.IPFamilies = Slice.ofList []) (hr : r.Spec.IPFamilies.len ≠ 0) :
    needsRecreate ParseIP e r = some true := by
  have hkeep : (merged ParseIP e r).Spec.IPFamilies = Slice.ofList [] := by
    rw [merged_IPFamilies, he]; rfl
  have hne : ¬ ([] : List String) = r.Spec.IPFamilies.elems := by
    intro h
    apply hr
    unfold Slice.len
    rw [← h]; rfl
  rw [needsRecreate_eq, hkeep, Slice.elems_ofList]
  simp [hne]

/-- What the code does for IPFamilies and IPFamilyPolicy: the merged
IPFamilies is that of `r` when the IPFamilies of `e` is nil, and that of `e`
when it is not nil, the empty non-nil list included; the merged IPFamilyPolicy
is that of `r` when the IPFamilyPolicy of `e` is nil, and that of `e`
otherwise. -/
theorem families_adopted_only_when_nil (ParseIP : String → Option IP) (e r : Service) :
    ∃ m, applyServerSideValues ParseIP e r = some m ∧
      (e.Spec.IPFamilies = Slice.nil → m.Spec.IPFamilies = r.Spec.IPFamilies) ∧
      (e.Spec.IPFamilies ≠ Slice.nil → m.Spec.IPFamilies = e.Spec.IPFamilies) ∧
      (e.Spec.IPFamilyPolicy = none → m.Spec.IPFamilyPolicy = r.Spec.IPFamilyPolicy) ∧
      (e.Spec.IPFamilyPolicy ≠ none → m.Spec.IPFamilyPolicy = e.Spec.IPFamilyPolicy) := by
  refine ⟨merged ParseIP e r, applyServerSideValues_eq ParseIP e r, ?_, ?_, ?_, ?_⟩
  · intro h
    rw [merged_IPFamilies, h]; rfl
  · intro h
    rw [merged_IPFamilies]
    cases hf : e.Spec.IPFamilies with
    | nil => exact absurd hf h
    | ofList l => rfl
  · intro h
    rw [merged_IPFamilyPolicy, h]; rfl
  · intro h
    rw [merged_IPFamilyPolicy]
    cases hp : e.Spec.IPFamilyPolicy with
    | none => exact absurd hp h
    | some v => rfl

/-- An example of the nil case: a desired service with nil IPFamilies and nil
IPFamilyPolicy takes both from the observed service. -/
theorem families_adopted_only_when_nil_example :
    ∃ m, applyServerSideValues parseIPDotted desiredSvc observedSvc = some m ∧
      m.Spec.IPFamilies = Slice.ofList ["IPv4", "IPv6"] ∧
      m.Spec.IPFamilyPolicy = some "PreferDualStack" := by
  obtain ⟨m, hm, h1, _, h3, _⟩ := families_adopted_only_when_nil parseIPDotted desiredSvc observedSvc
  exact ⟨m, hm, h1 rfl, h3 rfl⟩

/-- When `e` differs from `r` in the type only, and the merged type is that
of `r`, the merged service is `r`. -/
theorem merged_eq_of_eq_except_type (ParseIP : String → Option IP) (e r : Service)
    (hT : mergedType e r = r.Spec.Type_)
    (hspec : { e.Spec with Type_ := r.Spec.Type_ } = r.Spec)
    (hmeta : e.ObjectMeta = r.ObjectMeta) : merged ParseIP e r = r := by
  have hf : ∀ {β : Type} (f : ServiceSpec → β),
      f { e.Spec with Type_ := r.Spec.Type_ } = f r.Spec :=
    fun f => congrArg f hspec
  apply service_eq_of_fields
  · apply serviceSpec_eq_of_fields
    · rw [merged_Ports, show e.Spec.Ports = r.Spec.Ports from hf ServiceSpec.Ports]
      exact mergedPorts_self _ _
    · exact hf ServiceSpec.Selector
    · rw [merged_ClusterIP,
        show e.Spec.ClusterIP = r.Spec.ClusterIP from hf ServiceSpec.ClusterIP]
      exact ite_self _
    · rw [merged_ClusterIPs,
        show e.Spec.ClusterIPs = r.Spec.ClusterIPs from hf ServiceSpec.ClusterIPs]
      exact ite_self _
    · rw [merged_Type, hT]
    · exact hf ServiceSpec.ExternalIPs
    · rw [merged_SessionAffinity,
        show e.Spec.SessionAffinity = r.Spec.SessionAffinity from
          hf ServiceSpec.SessionAffinity]
      exact ite_self _
    · exact hf ServiceSpec.LoadBalancerIP
    · exact hf ServiceSpec.LoadBalancerSourceRanges
    · exact hf ServiceSpec.ExternalName
    · exact hf ServiceSpec.ExternalTrafficPolicy
    · rw [merged_HealthCheckNodePort,
        show e.Spec.HealthCheckNodePort = r.Spec.HealthCheckNodePort from
          hf ServiceSpec.HealthCheckNodePort]
      exact ite_self _
    · exact hf ServiceSpec.PublishNotReadyAddresses
    · exact hf ServiceSpec.SessionAffinityConfig
    · rw [merged_IPFamilies,
        show e.Spec.IPFamilies = r.Spec.IPFamilies from hf ServiceSpec.IPFamilies]
      exact ite_self _
    · rw [merged_IPFamilyPolicy,
        show e.Spec.IPFamilyPolicy = r.Spec.IPFamilyPolicy from
          hf ServiceSpec.IPFamilyPolicy]
      exact ite_self _
    · exact hf ServiceSpec.AllocateLoadBalancerNodePorts
  · rw [merged_Labels, hmeta]; exact stringMap_union_self _
  · rw [merged_Annotations, hmeta]; exact stringMap_union_self _

/-- C14 (kind defaulting): when `e` leaves the type unset, the merged type is
the type of `r`; if moreover every other field of `e` (the other spec fields,
the labels, the annotations) equals that of `r`, `needsRecreate` and
`needsUpdate` both return false. -/
theorem C14_kind_defaulting (ParseIP : String → Option IP) (e r : Service)
    (hUnset : e.Spec.Type_ = "") :
    ∃ m, applyServerSideValues ParseIP e r = some m ∧
      m.Spec.Type_ = r.Spec.Type_ ∧
      ({ e.Spec with Type_ := r.Spec.Type_ } = r.Spec → e.ObjectMeta = r.ObjectMeta →
        needsRecreate ParseIP e r = some false ∧ needsUpdate ParseIP e r = some false) := by
  have hT : mergedType e r = r.Spec.Type_ := (mergedType_eq_iff e r).mpr (Or.inl hUnset)
  refine ⟨merged ParseIP e r, applyServerSideValues_eq ParseIP e r, hT, ?_⟩
  intro hspec hmeta
  have hm := merged_eq_of_eq_except_type ParseIP e r hT hspec hmeta
  rw [needsRecreate_eq, needsUpdate_eq, hm]
  constructor
  · simp
  · simp [LabelsAndAnnotationsAreEqual]

/-- The witness of C14: the desired service is the observed one with its
type unset; the observed type is ClusterIP. -/
theorem C14_kind_defaulting_witness :
    desiredUnsetType.Spec.Type_ = "" ∧
      (∃ m, applyServerSideValues parseIPDotted desiredUnsetType observedSvc = some m ∧
        m.Spec.Type_ = "ClusterIP") ∧
      needsRecreate parseIPDotted desiredUnsetType observedSvc = some false ∧
      needsUpdate parseIPDotted desiredUnsetType observedSvc = some false := by
  obtain ⟨m, hm, hT, h⟩ := C14_kind_defaulting parseIPDotted desiredUnsetType observedSvc rfl
  exact ⟨rfl, ⟨m, hm, hT⟩, h (by decide) (by decide)⟩

/-- The counterexample to C15 as stated: the desired service is of type
NodePort and leaves ClusterIP and IPFamilies unset; the observed service is of
type ClusterIP with the address 10.0.0.5. The type changes, so the merger does
not carry the address forward, and `needsRecreate` returns true. -/
theorem C15_counterexample :
    desiredNodePortSvc.Spec.ClusterIP = "" ∧
      desiredNodePortSvc.Spec.IPFamilies = Slice.nil ∧
      observedSvc.Spec.ClusterIP = "10.0.0.5" ∧
      (applyServerSideValues parseIPDotted desiredNodePortSvc observedSvc).map
          (fun m => m.Spec.ClusterIP) = some "" ∧
      needsRecreate parseIPDotted desiredNodePortSvc observedSvc = some true := by
  refine ⟨rfl, rfl, rfl, by decide, by decide⟩

/-- C15 as amended (carry-forward): once the merger has run, IPFamilies and
IPFamilyPolicy that `e` left nil hold the value of `r`; a ClusterIP that `e`
left empty holds the value of `r` when the type is unchanged after type
defaulting and the ClusterIP of `r` is a valid IP literal; ClusterIPs that `e`
left empty hold the value of `r` when the type is unchanged and every element
of the ClusterIPs of `r` is a valid IP literal. Under the conditions for the
ClusterIP, `needsRecreate` returns false whenever `e` leaves ClusterIP empty
and IPFamilies nil. -/
theorem C15_carry_forward (ParseIP : String → Option IP) (e r : Service) :
    ∃ m, applyServerSideValues ParseIP e r = some m ∧
      (e.Spec.IPFamilies = Slice.nil → m.Spec.IPFamilies = r.Spec.IPFamilies) ∧
      (e.Spec.IPFamilyPolicy = none → m.Spec.IPFamilyPolicy = r.Spec.IPFamilyPolicy) ∧
      ((e.Spec.Type_ = "" ∨ e.Spec.Type_ = r.Spec.Type_) → e.Spec.ClusterIP = "" →
        (ParseIP r.Spec.ClusterIP).isSome = true → m.Spec.ClusterIP = r.Spec.ClusterIP) ∧
      ((e.Spec.Type_ = "" ∨ e.Spec.Type_ = r.Spec.Type_) → e.Spec.ClusterIPs.len = 0 →
        (∀ ip ∈ r.Spec.ClusterIPs.elems, (ParseIP ip).isSome = true) →
        m.Spec.ClusterIPs = r.Spec.ClusterIPs) ∧
      ((e.Spec.Type_ = "" ∨ e.Spec.Type_ = r.Spec.Type_) → e.Spec.ClusterIP = "" →
        (ParseIP r.Spec.ClusterIP).isSome = true → e.Spec.IPFamilies = Slice.nil →
        needsRecreate ParseIP e r = some false) := by
  have hcip : (e.Spec.Type_ = "" ∨ e.Spec.Type_ = r.Spec.Type_) → e.Spec.ClusterIP = "" →
      (ParseIP r.Spec.ClusterIP).isSome = true →
      (merged ParseIP e r).Spec.ClusterIP = r.Spec.ClusterIP := by
    intro hT hE hV
    rw [merged_ClusterIP, if_pos ⟨(mergedType_eq_iff e r).mpr hT, hE, hV⟩]
  have hfam : e.Spec.IPFamilies = Slice.nil →
      (merged ParseIP e r).Spec.IPFamilies = r.Spec.IPFamilies := by
    intro h
    rw [merged_IPFamilies, h]; rfl
  refine ⟨merged ParseIP e r, applyServerSideValues_eq ParseIP e r, hfam, ?_, hcip, ?_, ?_⟩
  · intro h
    rw [merged_IPFamilyPolicy, h]; rfl
  · intro hT hE hV
    rw [merged_ClusterIPs,
      if_pos ⟨(mergedType_eq_iff e r).mpr hT, hE, (validClusterIPs_iff _ _).mpr hV⟩]
  · intro hT hE hV hF
    rw [needsRecreate_eq, hcip hT hE hV, hfam hF]
    simp

/-- The witness of C15: the desired service leaves ClusterIP, ClusterIPs,
IPFamilies and IPFamilyPolicy unset and has the type of the observed service,
whose addresses are valid. -/
theorem C15_carry_forward_witness :
    (∃ m, applyServerSideValues parseIPDotted desiredSvc observedSvc = some m ∧
      m.Spec.ClusterIP = "10.0.0.5" ∧
      m.Spec.ClusterIPs = Slice.ofList ["10.0.0.5", "10.0.0.6"]) ∧
    needsRecreate parseIPDotted desiredSvc observedSvc = some false := by
  obtain ⟨m, hm, _, _, h3, h4, h5⟩ := C15_carry_forward parseIPDotted desiredSvc observedSvc
  exact ⟨⟨m, hm, h3 (Or.inr rfl) rfl (by decide), h4 (Or.inr rfl) rfl (by decide)⟩,
    h5 (Or.inr rfl) rfl (by decide) rfl⟩

/-- The index loop over the ports fails when the observed list is shorter
than the expected one: the equal-length check in the merger is what keeps
the access in bounds. -/
theorem applyPorts_out_of_range :
    applyPorts ServiceTypeNodePort Slice.nil 0 [zeroPort] = none := by decide

/-- The index loop over the address families fails when the observed list is
shorter than the expected one. -/
theorem ipFamiliesLoop_out_of_range : ipFamiliesLoop Slice.nil 0 ["IPv4"] = none := by
  decide

/-- C16 (no failure): for every desired `e` and observed `r`, whatever the
address strings and the lengths of the Ports and IPFamilies lists, the merger
and both checkers return a result. The accesses `r.Spec.Ports[i]` and
`r.Spec.IPFamilies[i]` are in bounds because the loops run only on lists of
the length of the observed ones: on such lists both loops return a result. -/
theorem C16_never_fails (ParseIP : String → Option IP) (e r : Service) :
    (∃ m, applyServerSideValues ParseIP e r = some m) ∧
    (∃ b, needsRecreate ParseIP e r = some b) ∧
    (∃ b, needsUpdate ParseIP e r = some b) ∧
    (∀ (svcType : String) (ps : List ServicePort), ps.length = r.Spec.Ports.len →
      ∃ qs, applyPorts svcType r.Spec.Ports 0 ps = some qs) ∧
    (∀ fams : List String, fams.length = r.Spec.IPFamilies.len →
      ∃ b, ipFamiliesLoop r.Spec.IPFamilies 0 fams = some b) := by
  refine ⟨⟨_, applyServerSideValues_eq ParseIP e r⟩, ⟨_, needsRecreate_eq ParseIP e r⟩,
    ⟨_, needsUpdate_eq ParseIP e r⟩, ?_, ?_⟩
  · intro svcType ps hlen
    exact ⟨_, applyPorts_eq svcType r.Spec.Ports ps 0 (by omega)⟩
  · intro fams hlen
    exact ⟨_, ipFamiliesLoop_eq r.Spec.IPFamilies fams 0 (by
      rw [List.drop_zero]; exact hlen.symm)⟩

/-- The witness of C16: an observed headless service, whose address strings
do not parse, and a desired service with one port more than observed. -/
theorem C16_never_fails_witness :
    (∃ m, applyServerSideValues parseIPDotted desiredTwoPorts observedHeadless = some m) ∧
    (∃ b, needsRecreate parseIPDotted desiredTwoPorts observedHeadless = some b) ∧
    (∃ b, needsUpdate parseIPDotted desiredTwoPorts observedHeadless = some b) ∧
    (∃ qs, applyPorts ServiceTypeNodePort observedHeadless.Spec.Ports 0 [zeroPort] = some qs) ∧
    (∃ b, ipFamiliesLoop observedHeadless.Spec.IPFamilies 0 ["IPv6", "IPv4"] = some b) := by
  obtain ⟨h1, h2, h3, h4, h5⟩ := C16_never_fails parseIPDotted desiredTwoPorts observedHeadless
  exact ⟨h1, h2, h3, h4 ServiceTypeNodePort [zeroPort] rfl, h5 ["IPv6", "IPv4"] rfl⟩

/-- C17 (unconditional adopt-if-unset): the merged SessionAffinity is that of
`r` when that of `e` is the empty string and that of `e` otherwise; the merged
HealthCheckNodePort is that of `r` when that of `e` is 0 and that of `e`
otherwise. No other field of `e` or `r` enters either rule. -/
theorem C17_unconditional_adoption (ParseIP : String → Option IP) (e r : Service) :
    ∃ m, applyServerSideValues ParseIP e r = some m ∧
      m.Spec.SessionAffinity =
        (if e.Spec.SessionAffinity = "" then r.Spec.SessionAffinity
          else e.Spec.SessionAffinity) ∧
      m.Spec.HealthCheckNodePort =
        (if e.Spec.HealthCheckNodePort = 0 then r.Spec.HealthCheckNodePort
          else e.Spec.HealthCheckNodePort) :=
  ⟨merged ParseIP e r, applyServerSideValues_eq ParseIP e r, rfl, rfl⟩

/-- C18 (recreate implies update): whenever `needsRecreate` returns true,
`needsUpdate` returns true as well: a difference in ClusterIP or in IPFamilies
is a difference between the merged spec and the observed spec. -/
theorem C18_recreate_implies_update (ParseIP : String → Option IP) (e r : Service)
    (h : needsRecreate ParseIP e r = some true) : needsUpdate ParseIP e r = some true := by
  rw [needsRecreate_eq] at h
  have hb := Option.some.inj h
  have hne : (merged ParseIP e r).Spec ≠ r.Spec := by
    intro heq
    rw [heq] at hb
    simp at hb
  rw [needsUpdate_eq]
  simp [hne]

/-- The witness of C18: the desired address 10.0.0.9 against the observed
address 10.0.0.5. -/
theorem C18_recreate_implies_update_witness :
    needsRecreate parseIPDotted
        { desiredSvc with Spec := { desiredSvc.Spec with ClusterIP := "10.0.0.9" } }
        observedSvc = some true ∧
      needsUpdate parseIPDotted
        { desiredSvc with Spec := { desiredSvc.Spec with ClusterIP := "10.0.0.9" } }
        observedSvc = some true :=
  ⟨by decide,
    C18_recreate_implies_update parseIPDotted
      { desiredSvc with Spec := { desiredSvc.Spec with ClusterIP := "10.0.0.9" } }
      observedSvc (by decide)⟩

/-- C19 (an address that is not adopted forces a recreate): when `e` leaves
ClusterIP unset and the ClusterIP of `r` is not empty, `needsRecreate` returns
true if the type of `e` is set and differs from the type of `r`, or if the
ClusterIP of `r` is not a valid IP literal. -/
theorem C19_unadopted_address_recreates (ParseIP : String → Option IP) (e r : Service)
    (hUnset : e.Spec.ClusterIP = "")
    (hObserved : r.Spec.ClusterIP ≠ "")
    (hRefused : (e.Spec.Type_ ≠ "" ∧ e.Spec.Type_ ≠ r.Spec.Type_) ∨
      ParseIP r.Spec.ClusterIP = none) :
    needsRecreate ParseIP e r = some true := by
  have hkeep : (merged ParseIP e r).Spec.ClusterIP = e.Spec.ClusterIP := by
    rw [merged_ClusterIP]
    apply if_neg
    rintro ⟨hT, _, hV⟩
    rcases hRefused with ⟨h1, h2⟩ | h
    · rcases (mergedType_eq_iff e r).mp hT with h3 | h3
      · exact h1 h3
      · exact h2 h3
    · rw [h] at hV
      exact Bool.noConfusion hV
  have hne : ¬ (merged ParseIP e r).Spec.ClusterIP = r.Spec.ClusterIP := by
    rw [hkeep, hUnset]
    exact fun h => hObserved h.symm
  rw [needsRecreate_eq]
  simp [hne]

/-- The witness of C19: a desired service with the ClusterIP unset against a
headless observed service, whose ClusterIP is the placeholder "None". -/
theorem C19_unadopted_address_recreates_witness :
    parseIPDotted "None" = none ∧
      needsRecreate parseIPDotted desiredSvc observedHeadless = some true :=
  ⟨by decide,
    C19_unadopted_address_recreates parseIPDotted desiredSvc observedHeadless rfl (by decide)
      (Or.inr (by decide))⟩

theorem merge_eq_of_subset (dest src : StringMap)
    (h : ∀ k v, dest.lookup k = some v → src.lookup k = some v) :
    MergePreservingExistingKeys dest src = src := by
  apply Finmap.ext_lookup
  intro k
  by_cases hk : k ∈ dest
  · rw [MergePreservingExistingKeys_lookup_of_mem dest src k hk]
    cases hd : dest.lookup k with
    | none => exact absurd hk (Finmap.lookup_eq_none.mp hd)
    | some v => exact (h k v hd).symm
  · exact MergePreservingExistingKeys_lookup_of_not_mem dest src k hk

/-- C20 (a removed label or annotation is not detected): if every key of the
labels and of the annotations of `e` is present in `r` with the same value,
the merged labels and annotations are those of `r`, whatever further keys `r`
holds, and `needsUpdate` returns true exactly when the merged spec differs
from the spec of `r`. -/
theorem C20_removed_metadata_undetected (ParseIP : String → Option IP) (e r : Service)
    (hLabels : ∀ k v, e.ObjectMeta.Labels.lookup k = some v →
      r.ObjectMeta.Labels.lookup k = some v)
    (hAnnotations : ∀ k v, e.ObjectMeta.Annotations.lookup k = some v →
      r.ObjectMeta.Annotations.lookup k = some v) :
    ∃ m, applyServerSideValues ParseIP e r = some m ∧
      m.ObjectMeta.Labels = r.ObjectMeta.Labels ∧
      m.ObjectMeta.Annotations = r.ObjectMeta.Annotations ∧
      needsUpdate ParseIP e r = some (decide (m.Spec ≠ r.Spec)) := by
  have hl : (merged ParseIP e r).ObjectMeta.Labels = r.ObjectMeta.Labels :=
    merge_eq_of_subset _ _ hLabels
  have ha : (merged ParseIP e r).ObjectMeta.Annotations = r.ObjectMeta.Annotations :=
    merge_eq_of_subset _ _ hAnnotations
  refine ⟨merged ParseIP e r, applyServerSideValues_eq ParseIP e r, hl, ha, ?_⟩
  rw [needsUpdate_eq]
  simp [LabelsAndAnnotationsAreEqual, hl, ha]

/-- The witness of C20: the label app:es, present on the observed service,
has been removed from the desired one; nothing else differs, and `needsUpdate`
returns false. -/
theorem C20_removed_metadata_undetected_witness :
    desiredNoLabels.ObjectMeta.Labels = ∅ ∧
      observedSvc.ObjectMeta.Labels.lookup "app" = some "es" ∧
      (∃ m, applyServerSideValues parseIPDotted desiredNoLabels observedSvc = some m ∧
        m.ObjectMeta.Labels = observedSvc.ObjectMeta.Labels) ∧
      needsUpdate parseIPDotted desiredNoLabels observedSvc = some false := by
  obtain ⟨m, hm, hl, _, _⟩ :=
    C20_removed_metadata_undetected parseIPDotted desiredNoLabels observedSvc
      (by intro k v h; exact Option.noConfusion (h.symm.trans (Finmap.lookup_empty k)))
      (by intro k v h; exact h)
  exact ⟨rfl, by decide, ⟨m, hm, hl⟩, by decide⟩

end ServiceControl
